import Mathlib

/-!
# Rural-Nexus-API: the sequence generator, the crop/price join and the write handlers

A shallow embedding of `index.js`.  The document store is a record of lists, one list per
collection, in insertion (natural) order.  A handler is a function from the store and the
request to the response and the store it leaves.

Conventions of the embedding:

* a `Number` is a double; a `Number` field of a document holds an integer-valued double, as
  an `Int`, and what the code computes (a sum, a parsed string) is rounded as a double rounds
  it, to 53 significant bits with ties to even: integers up to `2 ^ 53` in magnitude are
  exact;
* a field that a document may lack is an `Option`; `none` is "absent";
* a `Mixed` field is a `JVal`, a JSON value, so a stored `null` is `JVal.null`;
* `bcrypt.compare` is a parameter of `login`: the hashing primitive is a collaborator;
* a path parameter is the string the router hands over; `parseInt` and `Number` are
  modelled on strings;
* a request body is a record of the values the handler reads, typed as the schema casts
  them; the resolution of a storage-native `_id` is a parameter of the handlers that use it.
-/

namespace RuralNexus

/-! ## Values and documents -/

/-- A JSON value, as a `Mixed` schema path stores it. -/
inductive JVal where
  | null
  | bool (b : Bool)
  | num (n : Int)
  | str (s : String)
  | arr (items : List JVal)
  | obj (fields : List (String × JVal))

/-- A document of `userSchema`.  `password` holds the salted hash. -/
structure User where
  id : Option Int
  username : String
  name : Option String
  phone : Option String
  address : Option String
  job_title : Option String
  email : Option String
  password : Option String
  activation : Int
  user_type : String
deriving DecidableEq, Repr

/-- A document of `announcementSchema`; `created_at` is a timestamp. -/
structure Announcement where
  id : Option Int
  title : Option String
  content : Option String
  created_at : Int
deriving DecidableEq, Repr

/-- A document of `suggestionSchema`. -/
structure Suggestion where
  id : Option Int
  title : Option String
  content : Option String
  username : Option String
  created_at : Int
  response : Option String
deriving DecidableEq, Repr

/-- A document of `querySchema`. -/
structure Query where
  id : Option Int
  username : Option String
  matter : Option String
  time : Int
  admin_response : Option String
deriving DecidableEq, Repr

/-- A document of `placeSchema`. -/
structure Place where
  id : Option Int
  place_name : Option String
deriving DecidableEq, Repr

/-- A document of `cropSchema`.  The schema requires `crop_name` and `avg_price` when a
document is saved; an update runs no validator, so a stored document may hold `null` in
either (`none` for `crop_name`, `some JVal.null` or `none` for `avg_price`). -/
structure Crop where
  id : Option Int
  crop_name : Option String
  avg_price : Option JVal

/-- A document of `priceSchema`: `place_id` and `crop_id` are required numbers. -/
structure Price where
  id : Option Int
  place_id : Int
  crop_id : Int
  price : Option JVal
  month_year : Option String

/-- What a `catch (err)` block receives: an `Error` thrown by the handler code with its
message, a schema validation failure with the paths that failed, or a unique-index violation
on a path. -/
inductive Failure where
  | thrown (message : String)
  | validation (paths : List String)
  | duplicateKey (path : String)
deriving DecidableEq, Repr

/-! ## Doubles -/

/-- The position of the highest set bit of a positive number, by halving. -/
def log2Fuel : Nat → Nat → Nat
  | 0, _ => 0
  | fuel + 1, n => if n < 2 then 0 else log2Fuel fuel (n / 2) + 1

/-- The integer part of the binary logarithm; 0 at 0. -/
def floorLog2 (n : Nat) : Nat := log2Fuel n n

/-- The quotient `n / d` rounded to the nearest integer, a tie going to the even one. -/
def roundHalfEven (n d : Nat) : Nat :=
  if 2 * (n % d) < d then n / d
  else if d < 2 * (n % d) then n / d + 1
  else if (n / d) % 2 = 0 then n / d
  else n / d + 1

/-- The double nearest to a natural number: the number itself up to `2 ^ 53`, above that
the nearest multiple of the power of two that leaves 53 significant bits. -/
def roundNatToDouble (n : Nat) : Nat :=
  if n ≤ 2 ^ 53 then n
  else roundHalfEven n (2 ^ (floorLog2 n - 52)) * 2 ^ (floorLog2 n - 52)

/-- The double nearest to an integer. -/
def roundToDouble (n : Int) : Int :=
  if n < 0 then -((roundNatToDouble n.natAbs : Nat) : Int)
  else ((roundNatToDouble n.natAbs : Nat) : Int)

/-- The document of `counterSchema`: `_id` is the sequence name. -/
structure Counter where
  _id : String
  sequence_value : Int
deriving DecidableEq, Repr

/-- `Counter.findById(sequenceName)`: the first document whose `_id` is the name. -/
def Counter.findById (cs : List Counter) (sequenceName : String) : Option Counter :=
  cs.find? (fun d => decide (d._id = sequenceName))

/-- `Counter.findByIdAndUpdate(sequenceName, { $inc: { sequence_value: 1 } }, { new: true })`:
one store operation that adds 1, as doubles add, to the first document whose `_id` is the
name and answers with the document after the update, or with `none` when there is no such
document. -/
def Counter.findByIdAndUpdate : List Counter → String → Option Counter × List Counter
  | [], _ => (none, [])
  | d :: ds, sequenceName =>
    if d._id = sequenceName then
      (some { d with sequence_value := roundToDouble (d.sequence_value + 1) },
        { d with sequence_value := roundToDouble (d.sequence_value + 1) } :: ds)
    else
      ((Counter.findByIdAndUpdate ds sequenceName).1,
        d :: (Counter.findByIdAndUpdate ds sequenceName).2)

/-- `getNextSequenceValue(sequenceName)`, run alone: the existence read, then the
increment-and-fetch.  A thrown `Error` is `Except.error` with its message. -/
def getNextSequenceValue (cs : List Counter) (sequenceName : String) :
    Except Failure Int × List Counter :=
  match Counter.findById cs sequenceName with
  | none => (.error (.thrown "Sequence document not found or created"), cs)
  | some _ =>
    match Counter.findByIdAndUpdate cs sequenceName with
    | (some result, cs1) => (.ok result.sequence_value, cs1)
    | (none, cs1) => (.error (.thrown "Failed to increment sequence value"), cs1)

/-- The document store: one list per model, in natural order. -/
structure Store where
  users : List User
  announcements : List Announcement
  suggestions : List Suggestion
  queries : List Query
  places : List Place
  crops : List Crop
  prices : List Price
  counters : List Counter

/-! ## Responses -/

/-- One element of the array that `GET /crops/:placeId` sends: the output of `$project`. -/
structure CropRow where
  id : Option Int
  crop_name : String
  price : Option JVal
  month_year : Option String
  avg_price : JVal

/-- The JSON bodies the handlers below send. -/
inductive Body where
  | login (success : Bool) (message : Option String) (userType : Option String)
  | message (text : String)
  | error (text : String)
  | errorDetails (text : String) (details : Failure)
  | rows (items : List CropRow)
  | cropAdded (text : String) (crop : Crop)
  | announcementUpdated (text : String) (data : Announcement)

/-- An HTTP response: status code and JSON body. -/
structure Response where
  status : Nat
  body : Body

/-! ## Concurrent calls of `getNextSequenceValue` -/

/-- Where one call of `getNextSequenceValue` stands: before its `findById`, between its
`findById` (which answered a document) and its `findByIdAndUpdate`, or finished. -/
inductive Call where
  | start
  | found
  | returned (value : Int)
  | threw (e : Failure)
deriving DecidableEq, Repr

/-- The next store operation of a call, with the code that follows it up to the next
`await`; a finished call does nothing. -/
def Call.step (sequenceName : String) (cs : List Counter) : Call → Call × List Counter
  | .start =>
    match Counter.findById cs sequenceName with
    | none => (.threw (.thrown "Sequence document not found or created"), cs)
    | some _ => (.found, cs)
  | .found =>
    match Counter.findByIdAndUpdate cs sequenceName with
    | (some result, cs1) => (.returned result.sequence_value, cs1)
    | (none, cs1) => (.threw (.thrown "Failed to increment sequence value"), cs1)
  | .returned value => (.returned value, cs)
  | .threw e => (.threw e, cs)

/-- The counters and the calls in flight on one sequence name. -/
structure Concurrent where
  counters : List Counter
  calls : List Call

/-- The store serves the next operation of call `i`. -/
def Concurrent.step (sequenceName : String) (σ : Concurrent) (i : Nat) : Concurrent :=
  match σ.calls[i]? with
  | none => σ
  | some c =>
    ⟨(Call.step sequenceName σ.counters c).2,
      σ.calls.set i (Call.step sequenceName σ.counters c).1⟩

/-- An interleaving is the list of call indices in the order the store serves them. -/
def Concurrent.run (sequenceName : String) (σ : Concurrent) (schedule : List Nat) :
    Concurrent :=
  schedule.foldl (Concurrent.step sequenceName) σ

/-- The value a call returned, if it returned. -/
def Call.value : Call → Option Int
  | .returned value => some value
  | _ => none

/-- How many store operations a call has behind it, a finished call counting for two. -/
def Call.phase : Call → Nat
  | .start => 0
  | .found => 1
  | _ => 2

/-! ## `POST /login` -/

/-- The body of `POST /login`.  `password` is `none` when the body carries no string there. -/
structure LoginBody where
  username : String
  password : Option String

/-- The handler of `POST /login`.  `compare` is `bcrypt.compare`, which throws when the data
or the hash is not a string; the `catch` block answers 500. -/
def login (compare : String → String → Bool) (st : Store) (body : LoginBody) : Response :=
  match st.users.find? (fun u => decide (u.username = body.username)) with
  | some user =>
    match body.password, user.password with
    | some password, some hash =>
      if compare password hash then
        if user.activation = 0 then
          ⟨200, .login false (some "Account not activated") none⟩
        else
          ⟨200, .login true none (some user.user_type)⟩
      else
        ⟨401, .login false (some "Invalid credentials") none⟩
    | _, _ => ⟨500, .error "Internal server error"⟩
  | none => ⟨401, .login false (some "Invalid credentials") none⟩

/-! ## `GET /crops/:placeId` -/

/-- The characters `parseInt` skips at the start: ECMAScript `WhiteSpace` and
`LineTerminator` code points. -/
def isStrWhiteSpaceChar (c : Char) : Bool :=
  c.toNat ∈ [0x09, 0x0A, 0x0B, 0x0C, 0x0D, 0x20, 0xA0, 0x1680, 0x2000, 0x2001, 0x2002,
    0x2003, 0x2004, 0x2005, 0x2006, 0x2007, 0x2008, 0x2009, 0x200A, 0x2028, 0x2029, 0x202F,
    0x205F, 0x3000, 0xFEFF]

/-- The value of a run of decimal digits, most significant first. -/
def digitsValue (ds : List Char) : Nat :=
  ds.foldl (fun acc c => 10 * acc + (c.toNat - 48)) 0

/-- The digits part of `parseInt(_, 10)`, after white space and sign are gone: the longest
run of decimal digits at the start; `none` (that is `NaN`) when that run is empty. -/
def parseDigits (cs : List Char) : Option Nat :=
  match cs.takeWhile Char.isDigit with
  | [] => none
  | d :: ds => some (digitsValue (d :: ds))

/-- `parseInt(string, 10)`: skip leading white space, read an optional sign, then the longest
run of decimal digits, and answer the double nearest to its value; `none` stands for `NaN`.
A run worth `2 ^ 1024` or more, which is read as an infinity, is given the integer it
rounds to: no stored double equals either. -/
def parseInt (string : String) : Option Int :=
  match string.toList.dropWhile isStrWhiteSpaceChar with
  | '-' :: rest => (parseDigits rest).map (fun n => -((roundNatToDouble n : Nat) : Int))
  | '+' :: rest => (parseDigits rest).map (fun n => ((roundNatToDouble n : Nat) : Int))
  | rest => (parseDigits rest).map (fun n => ((roundNatToDouble n : Nat) : Int))

/-- Stage `$lookup` of the pipeline: the `crops` documents whose `id` equals the price
document's `crop_id`, as the array `cropDetails`. -/
def lookupCropDetails (crops : List Crop) (price : Price) : List Crop :=
  crops.filter (fun c => decide (c.id = some price.crop_id))

/-- Stage `$unwind` with `preserveNullAndEmptyArrays: true`: one document per element of
`cropDetails`, and one document without `cropDetails` when the array is empty. -/
def unwindCropDetails (price : Price) : List Crop → List (Price × Option Crop)
  | [] => [(price, none)]
  | c :: cs => (c :: cs).map (fun d => (price, some d))

/-- `$ifNull` on a string path: the replacement when the path is null or missing. -/
def ifNullStr : Option String → String → String
  | some s, _ => s
  | none, replacement => replacement

/-- `$ifNull` on a `Mixed` path: the replacement when the path is null or missing. -/
def ifNull : Option JVal → JVal → JVal
  | none, replacement => replacement
  | some .null, replacement => replacement
  | some v, _ => v

/-- Stage `$project`: `id`, `price` and `month_year` of the price document as they are,
`crop_name` and `avg_price` of `cropDetails` through `$ifNull`. -/
def projectRow (doc : Price × Option Crop) : CropRow :=
  { id := doc.1.id
    crop_name := ifNullStr (doc.2.bind (fun c => c.crop_name)) "Unknown"
    price := doc.1.price
    month_year := doc.1.month_year
    avg_price := ifNull (doc.2.bind (fun c => c.avg_price)) (.num 0) }

/-- The aggregation of `GET /crops/:placeId`: `$match`, `$lookup`, `$unwind`, `$project`. -/
def cropsForPlace (st : Store) (placeId : Int) : List CropRow :=
  ((st.prices.filter (fun p => decide (p.place_id = placeId))).flatMap
    (fun p => unwindCropDetails p (lookupCropDetails st.crops p))).map projectRow

/-- The handler of `GET /crops/:placeId`; `placeId` is the path parameter as a string. -/
def getCropsByPlace (st : Store) (placeId : String) : Response :=
  match parseInt placeId with
  | none => ⟨400, .error "Invalid placeId format. Ensure it is an integer."⟩
  | some p =>
    match cropsForPlace st p with
    | [] => ⟨200, .rows []⟩
    | r :: rs => ⟨200, .rows (r :: rs)⟩

/-! ## `POST /add-price` and `POST /add-crop` -/

mutual
/-- The option `minimize` of a schema, on by default, as a document is turned into the
object that is stored and sent: an object left without keys is dropped from its parent. -/
def JVal.minimize : JVal → Option JVal
  | .obj fields =>
    match JVal.minimizeFields fields with
    | [] => none
    | f :: fs => some (.obj (f :: fs))
  | .arr items => some (.arr (JVal.minimizeItems items))
  | v => some v
/-- The keys of an object whose values are left after `minimize`. -/
def JVal.minimizeFields : List (String × JVal) → List (String × JVal)
  | [] => []
  | (k, v) :: rest =>
    match JVal.minimize v with
    | some w => (k, w) :: JVal.minimizeFields rest
    | none => JVal.minimizeFields rest
/-- The elements of an array: an object that is an element stays, even without keys. -/
def JVal.minimizeItems : List JVal → List JVal
  | [] => []
  | v :: rest =>
    (match JVal.minimize v with
      | some w => w
      | none => .obj []) :: JVal.minimizeItems rest
end

/-- The body of `POST /add-price`, with the two required numbers present. -/
structure AddPriceBody where
  place_id : Int
  crop_id : Int
  price : Option JVal
  month_year : Option String

/-- The object of a price document that is stored: `price` minimized. -/
def Price.toObject (doc : Price) : Price :=
  { doc with price := doc.price.bind JVal.minimize }

/-- `newPrice.save()`: the two required paths are present by the type of the document, so
validation passes; the insert fails on the unique index of `id`. -/
def Price.save (prices : List Price) (doc : Price) : Except Failure (List Price) :=
  if prices.any (fun p => decide (p.id = doc.id)) then
    .error (.duplicateKey "id")
  else
    .ok (prices ++ [doc.toObject])

/-- The handler of `POST /add-price`. -/
def addPrice (st : Store) (body : AddPriceBody) : Response × Store :=
  match st.prices.find?
      (fun p => decide (p.place_id = body.place_id) && decide (p.crop_id = body.crop_id)) with
  | some _ => (⟨400, .error "Crop is already available in the location"⟩, st)
  | none =>
    match getNextSequenceValue st.counters "price" with
    | (.error _, cs) => (⟨500, .error "Failed to add new price"⟩, { st with counters := cs })
    | (.ok priceId, cs) =>
      match Price.save st.prices
          ⟨some priceId, body.place_id, body.crop_id, body.price, body.month_year⟩ with
      | .error _ => (⟨500, .error "Failed to add new price"⟩, { st with counters := cs })
      | .ok prices =>
        (⟨200, .message "Price added successfully"⟩,
          { st with counters := cs, prices := prices })

/-- The body of `POST /add-crop`; `avg_price` is `none` when the body has no such key. -/
structure AddCropBody where
  crop_name : String
  avg_price : Option JVal

/-- The `required` validator of a `Mixed` path: the value is neither missing nor null. -/
def mixedRequired : Option JVal → Bool
  | none => false
  | some .null => false
  | some _ => true

/-- The `required` validator of a `String` path: a string of positive length. -/
def stringRequired : Option String → Bool
  | none => false
  | some s => decide (0 < s.length)

/-- The required paths of `cropSchema` that a document fails. -/
def Crop.validate (doc : Crop) : List String :=
  (if stringRequired doc.crop_name then [] else ["crop_name"]) ++
    (if mixedRequired doc.avg_price then [] else ["avg_price"])

/-- The object of a crop document that is stored and sent: `avg_price` minimized. -/
def Crop.toObject (doc : Crop) : Crop :=
  { doc with avg_price := doc.avg_price.bind JVal.minimize }

/-- `newCrop.save()`: validation of the two required paths, then the insert of the
document's object, which fails on the unique index of `id`. -/
def Crop.save (crops : List Crop) (doc : Crop) : Except Failure (List Crop) :=
  match Crop.validate doc with
  | path :: paths => .error (.validation (path :: paths))
  | [] =>
    if crops.any (fun c => decide (c.id = doc.id)) then
      .error (.duplicateKey "id")
    else .ok (crops ++ [doc.toObject])

/-- The handler of `POST /add-crop`. -/
def addCrop (st : Store) (body : AddCropBody) : Response × Store :=
  match st.crops.find? (fun c => decide (c.crop_name = some body.crop_name)) with
  | some _ => (⟨400, .error "Crop already exists"⟩, st)
  | none =>
    match getNextSequenceValue st.counters "crop" with
    | (.error e, cs) =>
      (⟨500, .errorDetails "Failed to add new crop" e⟩, { st with counters := cs })
    | (.ok cropId, cs) =>
      match Crop.save st.crops ⟨some cropId, some body.crop_name, body.avg_price⟩ with
      | .error e =>
        (⟨500, .errorDetails "Failed to add new crop" e⟩, { st with counters := cs })
      | .ok crops =>
        (⟨200, .cropAdded "Crop added successfully"
            (Crop.toObject ⟨some cropId, some body.crop_name, body.avg_price⟩)⟩,
          { st with counters := cs, crops := crops })

/-! ## `Number(string)` and the cast of a query value -/

/-- The mathematical value of the string given to `Number`: no numeric literal, an
infinity, or the decimal `± mantissa * 10 ^ exponent`. -/
inductive NumericLiteral where
  | invalid
  | infinity (negative : Bool)
  | decimal (negative : Bool) (mantissa : Nat) (exponent : Int)
deriving DecidableEq, Repr

/-- What `Number(string)` returns, a double: `NaN`, an infinity, or the number
`± mantissa * 2 ^ exponent`. -/
inductive JSNumber where
  | nan
  | infinity (negative : Bool)
  | finite (negative : Bool) (mantissa : Nat) (exponent : Int)
deriving DecidableEq, Repr

/-- The integer a number is, if it is one. -/
def JSNumber.toInt? : JSNumber → Option Int
  | .nan => none
  | .infinity _ => none
  | .finite negative mantissa exponent =>
    if 0 ≤ exponent then
      some ((if negative then -1 else 1) * ((mantissa * 2 ^ exponent.toNat : Nat) : Int))
    else if mantissa % 2 ^ (-exponent).toNat = 0 then
      some ((if negative then -1 else 1) * ((mantissa / 2 ^ (-exponent).toNat : Nat) : Int))
    else none

/-- The binary exponent at which the positive quotient `num / den` has 53 significant bits,
and not below that of the smallest doubles. -/
def doubleExponent (num den : Nat) : Int :=
  if num * 2 ^ (52 + floorLog2 den - floorLog2 num) / (den * 2 ^ (floorLog2 num - floorLog2 den - 52))
      < 2 ^ 52 then
    max ((floorLog2 num : Int) - (floorLog2 den : Int) - 52 - 1) (-1074)
  else
    max ((floorLog2 num : Int) - (floorLog2 den : Int) - 52) (-1074)

/-- The double nearest to the quotient `num / den`, as mantissa and binary exponent; `none`
when the quotient is beyond the largest double and rounds to an infinity. -/
def roundRatioToDouble (num den : Nat) : Option (Nat × Int) :=
  if num = 0 then some (0, 0)
  else
    match roundHalfEven (num * 2 ^ (-(doubleExponent num den)).toNat)
        (den * 2 ^ (doubleExponent num den).toNat), doubleExponent num den with
    | m, k => if 971 < k ∨ (k = 971 ∧ 2 ^ 53 ≤ m) then none else some (m, k)

/-- The double that a numeric literal denotes.  An integer of magnitude at most `2 ^ 53` is
a double; every other value is rounded to the nearest one. -/
def NumericLiteral.toNumber : NumericLiteral → JSNumber
  | .invalid => .nan
  | .infinity negative => .infinity negative
  | .decimal negative mantissa exponent =>
    if 0 ≤ exponent ∧ mantissa * 10 ^ exponent.toNat ≤ 2 ^ 53 then
      .finite negative (mantissa * 10 ^ exponent.toNat) 0
    else
      match roundRatioToDouble (mantissa * 10 ^ exponent.toNat) (10 ^ (-exponent).toNat) with
      | some (m, k) => .finite negative m k
      | none => .infinity negative

/-- The value of a digit of a binary, octal or hexadecimal literal. -/
def hexDigitValue (c : Char) : Option Nat :=
  if c.isDigit then some (c.toNat - 48)
  else if 97 ≤ c.toNat ∧ c.toNat ≤ 102 then some (c.toNat - 87)
  else if 65 ≤ c.toNat ∧ c.toNat ≤ 70 then some (c.toNat - 55)
  else none

/-- The value of a non-empty run of digits of the radix; `none` on any other list. -/
def radixValue (radix : Nat) : List Char → Option Nat
  | [] => none
  | c :: cs =>
    (c :: cs).foldl
      (fun acc d =>
        match acc, hexDigitValue d with
        | some a, some v => if v < radix then some (radix * a + v) else none
        | _, _ => none)
      (some 0)

/-- A `NonDecimalIntegerLiteral`: `0x`, `0o` or `0b` (either case) and digits of the radix. -/
def nonDecimalIntegerLiteral : List Char → Option Nat
  | '0' :: 'x' :: ds => radixValue 16 ds
  | '0' :: 'X' :: ds => radixValue 16 ds
  | '0' :: 'o' :: ds => radixValue 8 ds
  | '0' :: 'O' :: ds => radixValue 8 ds
  | '0' :: 'b' :: ds => radixValue 2 ds
  | '0' :: 'B' :: ds => radixValue 2 ds
  | _ => none

/-- A run of decimal digits that fills the list and is not empty. -/
def decimalDigits (ds : List Char) : Option Nat :=
  match ds with
  | [] => none
  | d :: rest => if (d :: rest).all Char.isDigit then some (digitsValue (d :: rest)) else none

/-- What follows the `e` of an `ExponentPart`: an optional sign and decimal digits. -/
def exponentPart : List Char → Option Int
  | '-' :: ds => (decimalDigits ds).map (fun n => -(n : Int))
  | '+' :: ds => (decimalDigits ds).map (fun n => (n : Int))
  | ds => (decimalDigits ds).map (fun n => (n : Int))

/-- A `StrUnsignedDecimalLiteral` with the sign read before it: `Infinity`, or digits with an
optional fraction and an optional exponent, at least one digit before the exponent. -/
def strUnsignedDecimalLiteral (negative : Bool) (cs : List Char) : NumericLiteral :=
  if cs = ['I', 'n', 'f', 'i', 'n', 'i', 't', 'y'] then .infinity negative
  else
    match cs.takeWhile Char.isDigit,
      (match cs.dropWhile Char.isDigit with
        | '.' :: r => r.takeWhile Char.isDigit
        | _ => []),
      (match cs.dropWhile Char.isDigit with
        | '.' :: r => r.dropWhile Char.isDigit
        | r => r) with
    | [], [], _ => .invalid
    | intPart, fracPart, [] =>
      .decimal negative (digitsValue (intPart ++ fracPart)) (-(fracPart.length : Int))
    | intPart, fracPart, e :: r =>
      if e = 'e' ∨ e = 'E' then
        match exponentPart r with
        | some x =>
          .decimal negative (digitsValue (intPart ++ fracPart)) (x - (fracPart.length : Int))
        | none => .invalid
      else .invalid

/-- The mathematical value of a string as `Number` reads it: white space is trimmed at both
ends; the empty string is 0; a string that is no `StrNumericLiteral` has none. -/
def stringNumericLiteral (string : String) : NumericLiteral :=
  match ((string.toList.dropWhile isStrWhiteSpaceChar).reverse.dropWhile
      isStrWhiteSpaceChar).reverse with
  | [] => .decimal false 0 0
  | '-' :: rest => strUnsignedDecimalLiteral true rest
  | '+' :: rest => strUnsignedDecimalLiteral false rest
  | literal =>
    match nonDecimalIntegerLiteral literal with
    | some n => .decimal false n 0
    | none => strUnsignedDecimalLiteral false literal

/-- `Number(string)`: the double nearest to the value of the string, `NaN` when it has
none. -/
def Number (string : String) : JSNumber :=
  (stringNumericLiteral string).toNumber

/-- Whether a stored `id` equals the number of a query `{ id: number }`. -/
def idEquals (id : Option Int) (number : JSNumber) : Bool :=
  match id, number.toInt? with
  | some i, some n => decide (i = n)
  | _, _ => false

/-! ## Update and delete by id -/

/-- `updateOne` and `findOneAndUpdate` on a list: the first document that matches the filter
is replaced by its update. -/
def updateFirst {α : Type} (p : α → Bool) (f : α → α) : List α → List α
  | [] => []
  | x :: xs => if p x then f x :: xs else x :: updateFirst p f xs

mutual
/-- Equality of two stored values, as an update needs it to tell whether it modifies. -/
def JVal.beq : JVal → JVal → Bool
  | .null, .null => true
  | .bool a, .bool b => a == b
  | .num a, .num b => a == b
  | .str a, .str b => a == b
  | .arr a, .arr b => JVal.beqList a b
  | .obj a, .obj b => JVal.beqFields a b
  | _, _ => false
/-- Equality of two arrays. -/
def JVal.beqList : List JVal → List JVal → Bool
  | [], [] => true
  | x :: xs, y :: ys => JVal.beq x y && JVal.beqList xs ys
  | _, _ => false
/-- Equality of two objects, key by key in order. -/
def JVal.beqFields : List (String × JVal) → List (String × JVal) → Bool
  | [], [] => true
  | (k, x) :: xs, (l, y) :: ys => (k == l) && JVal.beq x y && JVal.beqFields xs ys
  | _, _ => false
end

/-- Whether a `Mixed` path of a document already holds the value an update sets. -/
def holdsValue : Option JVal → JVal → Bool
  | some stored, value => JVal.beq stored value
  | none, _ => false

/-- The handler of `DELETE /deleteAnnouncement/:id`; `id` is the path parameter.  The cast
of the query value `Number(id)` throws on `NaN`, and the `catch` block answers 500. -/
def deleteAnnouncement (st : Store) (id : String) : Response × Store :=
  match Number id with
  | .nan => (⟨500, .error "Internal server error"⟩, st)
  | number =>
    match st.announcements.find? (fun a => idEquals a.id number) with
    | some _ =>
      (⟨200, .message "Announcement deleted successfully"⟩,
        { st with
          announcements := st.announcements.eraseP (fun a => idEquals a.id number) })
    | none => (⟨404, .message "Announcement not found"⟩, st)

/-- The body of `PUT /updateAnnouncement/:id`, both strings present. -/
structure UpdateAnnouncementBody where
  title : String
  content : String

/-- The update `{ title, content }` on an announcement. -/
def Announcement.update (body : UpdateAnnouncementBody) (a : Announcement) : Announcement :=
  { a with title := some body.title, content := some body.content }

/-- The handler of `PUT /updateAnnouncement/:id`. -/
def updateAnnouncement (st : Store) (id : String) (body : UpdateAnnouncementBody) :
    Response × Store :=
  match Number id with
  | .nan => (⟨500, .error "Internal server error"⟩, st)
  | announcementId =>
    match st.announcements.find? (fun a => idEquals a.id announcementId) with
    | some a =>
      (⟨200, .announcementUpdated "Announcement updated successfully" (a.update body)⟩,
        { st with
          announcements := updateFirst (fun a => idEquals a.id announcementId)
                             (Announcement.update body) st.announcements })
    | none => (⟨404, .message "Announcement not found"⟩, st)

/-- The body of `POST /deactivate-user`, `POST /remove-admin` and `POST /remove-user`, the
number present. -/
structure UserIdBody where
  user_id : Int

/-- The handler of `POST /deactivate-user`: `deleteOne`, whose result is not read. -/
def deactivateUser (st : Store) (body : UserIdBody) : Response × Store :=
  (⟨200, .message "User deactivated successfully"⟩,
    { st with users := st.users.eraseP (fun u => decide (u.id = some body.user_id)) })

/-- The filter `{ id: user_id, user_type }` of `POST /remove-admin` and `POST /remove-user`. -/
def User.isOfType (user_id : Int) (user_type : String) (u : User) : Bool :=
  decide (u.id = some user_id) && decide (u.user_type = user_type)

/-- The handler of `POST /remove-admin`: 404 when `deletedCount` is 0. -/
def removeAdmin (st : Store) (body : UserIdBody) : Response × Store :=
  match st.users.find? (User.isOfType body.user_id "admin") with
  | none => (⟨404, .message "Admin not found or not an admin"⟩, st)
  | some _ =>
    (⟨200, .message "Admin removed successfully"⟩,
      { st with users := st.users.eraseP (User.isOfType body.user_id "admin") })

/-- The handler of `POST /remove-user`: 404 unless `deletedCount` is positive. -/
def removeUser (st : Store) (body : UserIdBody) : Response × Store :=
  match st.users.find? (User.isOfType body.user_id "user") with
  | some _ =>
    (⟨200, .message "User removed successfully"⟩,
      { st with users := st.users.eraseP (User.isOfType body.user_id "user") })
  | none => (⟨404, .message "User not found or not a user"⟩, st)

/-- The body of `POST /respondSuggestion`, both values present. -/
structure RespondSuggestionBody where
  id : Int
  response : String

/-- The handler of `POST /respondSuggestion`: `updateOne`, whose result is not read. -/
def respondSuggestion (st : Store) (body : RespondSuggestionBody) : Response × Store :=
  (⟨200, .message "Suggestion responded successfully"⟩,
    { st with
      suggestions := updateFirst (fun s => decide (s.id = some body.id))
                       (fun s => { s with response := some body.response }) st.suggestions })

/-- The body of `PUT /admin/respondQuery/:id`, the string present. -/
structure RespondQueryBody where
  response : String

/-- The handler of `PUT /admin/respondQuery/:id`; `id` is the path parameter.  The cast of
the query value `parseInt(id, 10)` throws on `NaN`, and the `catch` block answers 500. -/
def respondQuery (st : Store) (id : String) (body : RespondQueryBody) : Response × Store :=
  match parseInt id with
  | none => (⟨500, .error "Internal server error"⟩, st)
  | some n =>
    match st.queries.find? (fun q => decide (q.id = some n)) with
    | none => (⟨404, .error "Query not found"⟩, st)
    | some _ =>
      (⟨200, .message "Query responded successfully"⟩,
        { st with
          queries := updateFirst (fun q => decide (q.id = some n))
                       (fun q => { q with admin_response := some body.response }) st.queries })

/-- The body of `POST /update-price`; a key that the body lacks is `none`, and the update
does not set it. -/
structure UpdatePriceBody where
  id : Int
  price : Option JVal
  month_year : Option String

/-- Whether a path of a document already holds what an update sets, if it sets it. -/
def holdsUpdate : Option JVal → Option JVal → Bool
  | _, none => true
  | stored, some value => holdsValue stored value

/-- The update `{ $set: { price, month_year } }` on a price document. -/
def Price.update (body : UpdatePriceBody) (p : Price) : Price :=
  { p with price := (match body.price with
                     | some value => some value
                     | none => p.price),
           month_year := (match body.month_year with
                          | some value => some value
                          | none => p.month_year) }

/-- The handler of `POST /update-price`: 404 when no document has the id, and 404 again when
`modifiedCount` is 0 because the document already holds the values.  With neither key in the
body no update is sent, the result has no `modifiedCount`, and the answer is 200. -/
def postUpdatePrice (st : Store) (body : UpdatePriceBody) : Response × Store :=
  match st.prices.find? (fun p => decide (p.id = some body.id)) with
  | none => (⟨404, .error "Price not found"⟩, st)
  | some existingPrice =>
    match body.price, body.month_year with
    | none, none => (⟨200, .message "Price updated successfully"⟩, st)
    | price, month_year =>
      if holdsUpdate existingPrice.price price
          && (month_year.isNone || decide (existingPrice.month_year = month_year)) then
        (⟨404, .error "Price not modified"⟩, st)
      else
        (⟨200, .message "Price updated successfully"⟩,
          { st with
            prices := updateFirst (fun p => decide (p.id = some body.id))
                        (Price.update body) st.prices })

/-- The body of `POST /update-average-price`; `average_price` is `none` when the body has
no such key. -/
structure UpdateAveragePriceBody where
  crop_id : Int
  average_price : Option JVal

/-- The handler of `POST /update-average-price`: 404 when `modifiedCount` is 0, that is when
no document has the id or the one that has it already holds the value.  With no
`average_price` in the body no update is sent, the result has no `modifiedCount`, and the
answer is 200 whatever the store. -/
def updateAveragePrice (st : Store) (body : UpdateAveragePriceBody) : Response × Store :=
  match body.average_price with
  | none => (⟨200, .message "Average price updated successfully"⟩, st)
  | some average_price =>
    match st.crops.find? (fun c => decide (c.id = some body.crop_id)) with
    | none => (⟨404, .error "Crop not found or no changes made"⟩, st)
    | some crop =>
      if holdsValue crop.avg_price average_price then
        (⟨404, .error "Crop not found or no changes made"⟩, st)
      else
        (⟨200, .message "Average price updated successfully"⟩,
          { st with
            crops := updateFirst (fun c => decide (c.id = some body.crop_id))
                       (fun c => { c with avg_price := some average_price }) st.crops })

/-- What the store makes of the string given to `findByIdAndUpdate` as `_id`: the cast to
an ObjectId throws, or it is the `_id` of no document, or of the document at a position of
the collection.  The storage-native `_id` is no field of the documents above, so this
resolution is a parameter of the two handlers that use it. -/
inductive ObjectIdLookup where
  | castError
  | absent
  | position (index : Nat)
deriving DecidableEq, Repr

/-- The body of `PUT /updateCrop/:id`, both values present. -/
structure UpdateCropBody where
  crop_name : String
  avg_price : JVal

/-- The handler of `PUT /updateCrop/:id`: `findByIdAndUpdate`, whose result is not read. -/
def putUpdateCrop (lookup : String → ObjectIdLookup) (st : Store) (id : String)
    (body : UpdateCropBody) : Response × Store :=
  match lookup id with
  | .castError => (⟨500, .error "Internal server error"⟩, st)
  | .absent => (⟨200, .message "Crop updated successfully"⟩, st)
  | .position index =>
    (⟨200, .message "Crop updated successfully"⟩,
      { st with
        crops := st.crops.modify
                   (fun c => { c with crop_name := some body.crop_name,
                                      avg_price := some body.avg_price }) index })

/-- The body of `PUT /updatePrice/:cropId`, the value present. -/
structure UpdateCropPriceBody where
  price : JVal

/-- The handler of `PUT /updatePrice/:cropId`: `findByIdAndUpdate`, whose result is not
read. -/
def putUpdatePrice (lookup : String → ObjectIdLookup) (st : Store) (cropId : String)
    (body : UpdateCropPriceBody) : Response × Store :=
  match lookup cropId with
  | .castError => (⟨500, .error "Internal server error"⟩, st)
  | .absent => (⟨200, .message "Crop price updated successfully"⟩, st)
  | .position index =>
    (⟨200, .message "Crop price updated successfully"⟩,
      { st with
        crops := st.crops.modify (fun c => { c with avg_price := some body.price }) index })

/-! ## Theorems -/

theorem roundNatToDouble_of_le (n : Nat) (h : n ≤ 2 ^ 53) : roundNatToDouble n = n := by
  unfold roundNatToDouble
  rw [if_pos h]

/-- An integer of magnitude at most `2 ^ 53` is a double. -/
theorem roundToDouble_of_safe (n : Int) (hlo : -2 ^ 53 ≤ n) (hhi : n ≤ 2 ^ 53) :
    roundToDouble n = n := by
  have h : n.natAbs ≤ 2 ^ 53 := by omega
  unfold roundToDouble
  rw [roundNatToDouble_of_le n.natAbs h]
  split <;> omega

theorem Counter.findByIdAndUpdate_of_findById (cs : List Counter) (S : String) (v : Int)
    (h : Counter.findById cs S = some ⟨S, v⟩) :
    (Counter.findByIdAndUpdate cs S).1 = some ⟨S, roundToDouble (v + 1)⟩ ∧
      Counter.findById (Counter.findByIdAndUpdate cs S).2 S
        = some ⟨S, roundToDouble (v + 1)⟩ := by
  induction cs with
  | nil => simp [Counter.findById] at h
  | cons d ds ih =>
    by_cases hd : d._id = S
    · have hd2 : d = ⟨S, v⟩ := by
        simpa [Counter.findById, List.find?, hd] using h
      subst hd2
      simp [Counter.findByIdAndUpdate, Counter.findById, List.find?]
    · have h2 : Counter.findById ds S = some ⟨S, v⟩ := by
        simpa [Counter.findById, List.find?, hd] using h
      have := ih h2
      simp [Counter.findByIdAndUpdate, hd, Counter.findById, List.find?, this.1]
      simpa [Counter.findById] using this.2

/-- What `getNextSequenceValue(S)` does on a record for `S` with value `v`, whatever `v`:
it returns the double nearest to `v + 1` and leaves the record holding it. -/
theorem getNextSequenceValue_of_findById (cs : List Counter) (S : String) (v : Int)
    (h : Counter.findById cs S = some ⟨S, v⟩) :
    ∃ cs1, getNextSequenceValue cs S = (.ok (roundToDouble (v + 1)), cs1) ∧
      Counter.findById cs1 S = some ⟨S, roundToDouble (v + 1)⟩ := by
  obtain ⟨h1, h2⟩ := Counter.findByIdAndUpdate_of_findById cs S v h
  unfold getNextSequenceValue
  rw [h]
  rcases hr : Counter.findByIdAndUpdate cs S with ⟨r, cs1⟩
  rw [hr] at h1 h2
  simp only at h1 h2
  subst h1
  exact ⟨cs1, rfl, h2⟩

/-- C1, as amended: when the Counter collection holds a record for `S` with a value `v`
from `-2 ^ 53` to `2 ^ 53 - 1`, `getNextSequenceValue(S)` succeeds, returns `v + 1`, and
leaves the record for `S` holding `v + 1`. -/
theorem getNextSequenceValue_seeded (cs : List Counter) (S : String) (v : Int)
    (h : Counter.findById cs S = some ⟨S, v⟩) (hlo : -2 ^ 53 ≤ v) (hhi : v < 2 ^ 53) :
    (getNextSequenceValue cs S).1 = .ok (v + 1) ∧
      Counter.findById (getNextSequenceValue cs S).2 S = some ⟨S, v + 1⟩ := by
  obtain ⟨cs1, h1, h2⟩ := getNextSequenceValue_of_findById cs S v h
  rw [roundToDouble_of_safe (v + 1) (by omega) (by omega)] at h1 h2
  rw [h1]
  exact ⟨rfl, h2⟩

theorem getNextSequenceValue_seeded_witness :
    Counter.findById [⟨"users", 3⟩, ⟨"crop", 7⟩] "crop" = some ⟨"crop", 7⟩ ∧
      (getNextSequenceValue [⟨"users", 3⟩, ⟨"crop", 7⟩] "crop").1 = .ok (7 + 1) ∧
      Counter.findById (getNextSequenceValue [⟨"users", 3⟩, ⟨"crop", 7⟩] "crop").2 "crop"
        = some ⟨"crop", 7 + 1⟩ :=
  ⟨by decide,
    getNextSequenceValue_seeded [⟨"users", 3⟩, ⟨"crop", 7⟩] "crop" 7 (by decide) (by decide)
      (by decide)⟩

/-- C1 as the claim states it fails: the record for `crop` holds `2 ^ 53`, and
`getNextSequenceValue("crop")` returns `2 ^ 53` again, not `2 ^ 53 + 1`, and leaves the
record as it was: the sum is no double and rounds back. -/
theorem getNextSequenceValue_at_limit :
    Counter.findById [⟨"crop", 9007199254740992⟩] "crop" = some ⟨"crop", 9007199254740992⟩ ∧
      (getNextSequenceValue [⟨"crop", 9007199254740992⟩] "crop").1
        = .ok 9007199254740992 ∧
      (getNextSequenceValue [⟨"crop", 9007199254740992⟩] "crop").2
        = [⟨"crop", 9007199254740992⟩] ∧
      (getNextSequenceValue [⟨"crop", 9007199254740992⟩] "crop").1
        ≠ .ok (9007199254740992 + 1) := by
  have h : getNextSequenceValue [⟨"crop", 9007199254740992⟩] "crop"
      = (.ok 9007199254740992, [⟨"crop", 9007199254740992⟩]) := by
    obtain ⟨cs1, h1, -⟩ := getNextSequenceValue_of_findById
      [⟨"crop", 9007199254740992⟩] "crop" 9007199254740992 (by decide)
    have hr : roundToDouble (9007199254740992 + 1) = 9007199254740992 := by decide
    rw [hr] at h1
    have h2 : (getNextSequenceValue [⟨"crop", 9007199254740992⟩] "crop").2
        = [⟨"crop", 9007199254740992⟩] := by
      simp only [getNextSequenceValue, Counter.findById, Counter.findByIdAndUpdate,
        List.find?, hr]
      decide
    rw [h1] at h2 ⊢
    simp only at h2
    rw [h2]
  rw [h]
  refine ⟨by decide, rfl, rfl, ?_⟩
  intro h3
  have h4 := Except.ok.inj h3
  revert h4
  decide

/-- C2: when the Counter collection holds no record for `S`, `getNextSequenceValue(S)`
throws, the collection is left as it was, and it still holds no record for `S`. -/
theorem getNextSequenceValue_unseeded (cs : List Counter) (S : String)
    (h : Counter.findById cs S = none) :
    getNextSequenceValue cs S
        = (.error (.thrown "Sequence document not found or created"), cs) ∧
      Counter.findById (getNextSequenceValue cs S).2 S = none := by
  unfold getNextSequenceValue
  rw [h]
  exact ⟨rfl, h⟩

theorem getNextSequenceValue_unseeded_witness :
    Counter.findById [⟨"users", 3⟩] "crop" = none ∧
      getNextSequenceValue [⟨"users", 3⟩] "crop"
        = (.error (.thrown "Sequence document not found or created"), [⟨"users", 3⟩]) ∧
      Counter.findById (getNextSequenceValue [⟨"users", 3⟩] "crop").2 "crop" = none :=
  ⟨by decide, getNextSequenceValue_unseeded [⟨"users", 3⟩] "crop" (by decide)⟩

/-! ### Interleaved calls -/

theorem set_of_getElem? {α : Type} (l : List α) (i : Nat) (a : α)
    (h : l[i]? = some a) : l.set i a = l := by
  induction l generalizing i with
  | nil => rfl
  | cons x xs ih =>
    cases i with
    | zero => simp at h; simp [h]
    | succ n => simp at h; simp [ih n h]

theorem Call.filterMap_value_set_same (l : List Call) (i : Nat) (c c1 : Call)
    (hi : l[i]? = some c) (hc : c.value = none) (hc1 : c1.value = none) :
    (l.set i c1).filterMap Call.value = l.filterMap Call.value := by
  induction l generalizing i with
  | nil => rfl
  | cons x xs ih =>
    cases i with
    | zero =>
      simp at hi
      subst hi
      simp [List.filterMap_cons, hc, hc1]
    | succ n =>
      simp at hi
      simp [List.filterMap_cons, ih n hi]

theorem Call.filterMap_value_set_returned (l : List Call) (i : Nat) (c : Call) (r : Int)
    (hi : l[i]? = some c) (hc : c.value = none) :
    ((l.set i (.returned r)).filterMap Call.value).Perm (r :: l.filterMap Call.value) := by
  induction l generalizing i with
  | nil => simp at hi
  | cons x xs ih =>
    cases i with
    | zero =>
      simp at hi
      subst hi
      simp only [List.set_cons_zero, List.filterMap_cons, hc]
      exact List.Perm.refl _
    | succ n =>
      simp at hi
      have h := ih n hi
      cases hx : x.value with
      | none => simpa [List.filterMap_cons, hx] using h
      | some y =>
        simp only [List.set_cons_succ, List.filterMap_cons, hx]
        exact (List.Perm.cons y h).trans (List.Perm.swap r y _)

theorem Call.eq_map_returned (l : List Call) (h : ∀ c ∈ l, ∃ r, c = Call.returned r) :
    l = (l.filterMap Call.value).map Call.returned := by
  induction l with
  | nil => rfl
  | cons x xs ih =>
    obtain ⟨r, hr⟩ := h x (List.mem_cons_self x xs)
    subst hr
    have := ih (fun c hc => h c (List.mem_cons_of_mem _ hc))
    simp [List.filterMap_cons, Call.value, ← this]

theorem Concurrent.step_of_none (S : String) (σ : Concurrent) (i : Nat)
    (h : σ.calls[i]? = none) : Concurrent.step S σ i = σ := by
  simp [Concurrent.step, h]

theorem Concurrent.step_of_some (S : String) (σ : Concurrent) (i : Nat) (c : Call)
    (h : σ.calls[i]? = some c) :
    Concurrent.step S σ i
      = ⟨(Call.step S σ.counters c).2, σ.calls.set i (Call.step S σ.counters c).1⟩ := by
  simp [Concurrent.step, h]

theorem Call.filterMap_value_length_lt (l : List Call) (i : Nat) (c : Call)
    (hi : l[i]? = some c) (hc : c.value = none) :
    (l.filterMap Call.value).length < l.length := by
  induction l generalizing i with
  | nil => simp at hi
  | cons x xs ih =>
    cases i with
    | zero =>
      simp at hi
      subst hi
      have := List.length_filterMap_le Call.value xs
      simp only [List.filterMap_cons, hc, List.length_cons]
      omega
    | succ n =>
      simp at hi
      have h := ih n hi
      cases hx : x.value with
      | none =>
        simp only [List.filterMap_cons, hx, List.length_cons]
        omega
      | some y =>
        simp only [List.filterMap_cons, hx, List.length_cons]
        omega

/-- The invariant of a run: no call has thrown, the counter of `S` holds `v + d`, and the
values returned so far are `v + 1, ..., v + d` in some order. -/
theorem Concurrent.step_invariant (S : String) (v : Int) (σ : Concurrent) (i : Nat)
    (hlo : -2 ^ 53 ≤ v) (hhi : v + σ.calls.length ≤ 2 ^ 53)
    (hthrew : ∀ c ∈ σ.calls, ∀ e, c ≠ Call.threw e)
    (hinv : ∃ d : Nat, Counter.findById σ.counters S = some ⟨S, v + d⟩ ∧
      (σ.calls.filterMap Call.value).Perm ((List.range d).map (fun k : Nat => v + 1 + (k : Int)))) :
    (Concurrent.step S σ i).calls.length = σ.calls.length ∧
    (∀ c ∈ (Concurrent.step S σ i).calls, ∀ e, c ≠ Call.threw e) ∧
    (∃ d : Nat, Counter.findById (Concurrent.step S σ i).counters S = some ⟨S, v + d⟩ ∧
      ((Concurrent.step S σ i).calls.filterMap Call.value).Perm
        ((List.range d).map (fun k : Nat => v + 1 + (k : Int)))) ∧
    (∀ j c, σ.calls[j]? = some c → ∃ c1, (Concurrent.step S σ i).calls[j]? = some c1 ∧
      min (c.phase + (if i = j then 1 else 0)) 2 ≤ c1.phase) := by
  obtain ⟨d, hfind, hperm⟩ := hinv
  cases hi : σ.calls[i]? with
  | none =>
    rw [Concurrent.step_of_none S σ i hi]
    refine ⟨rfl, hthrew, ⟨d, hfind, hperm⟩, ?_⟩
    intro j c hj
    refine ⟨c, hj, ?_⟩
    have : i ≠ j := by
      intro h
      subst h
      rw [hi] at hj
      cases hj
    simp [this]
  | some c0 =>
    have hilt : i < σ.calls.length := (List.getElem?_eq_some.mp hi).1
    have hmem : c0 ∈ σ.calls := List.mem_iff_getElem?.mpr ⟨i, hi⟩
    rw [Concurrent.step_of_some S σ i c0 hi]
    cases c0 with
    | start =>
      have hs : Call.step S σ.counters .start = (.found, σ.counters) := by
        simp [Call.step, hfind]
      rw [hs]
      refine ⟨List.length_set _ _ _, ?_, ⟨d, hfind, ?_⟩, ?_⟩
      · intro c hc e
        rcases List.mem_or_eq_of_mem_set hc with h | h
        · exact hthrew c h e
        · subst h
          simp
      · rw [Call.filterMap_value_set_same σ.calls i .start .found hi rfl rfl]
        exact hperm
      · intro j c hj
        by_cases hij : i = j
        · subst hij
          rw [hi] at hj
          cases hj
          exact ⟨.found, by simp [List.getElem?_set, hilt], by simp [Call.phase]⟩
        · exact ⟨c, by simp [List.getElem?_set, hij, hj], by simp [hij]⟩
    | found =>
      obtain ⟨h1, h2⟩ := Counter.findByIdAndUpdate_of_findById σ.counters S (v + d) hfind
      have hd : d < σ.calls.length := by
        have := Call.filterMap_value_length_lt σ.calls i .found hi rfl
        have hl := hperm.length_eq
        simp only [List.length_map, List.length_range] at hl
        omega
      rw [roundToDouble_of_safe (v + d + 1) (by omega) (by omega)] at h1 h2
      rcases hr : Counter.findByIdAndUpdate σ.counters S with ⟨r, cs1⟩
      rw [hr] at h1 h2
      simp only at h1 h2
      subst h1
      have hs : Call.step S σ.counters .found = (.returned (v + d + 1), cs1) := by
        simp [Call.step, hr]
      rw [hs]
      refine ⟨List.length_set _ _ _, ?_, ⟨d + 1, ?_, ?_⟩, ?_⟩
      · intro c hc e
        rcases List.mem_or_eq_of_mem_set hc with h | h
        · exact hthrew c h e
        · subst h
          simp
      · rw [h2]
        simp [add_assoc]
      · refine (Call.filterMap_value_set_returned σ.calls i .found (v + d + 1) hi rfl).trans ?_
        rw [List.range_succ, List.map_append, List.map_singleton]
        refine (List.Perm.cons _ hperm).trans ?_
        have : v + 1 + (d : Int) = v + d + 1 := by ring
        rw [this]
        exact (List.perm_append_singleton _ _).symm
      · intro j c hj
        by_cases hij : i = j
        · subst hij
          rw [hi] at hj
          cases hj
          exact ⟨.returned (v + d + 1), by simp [List.getElem?_set, hilt], by simp [Call.phase]⟩
        · exact ⟨c, by simp [List.getElem?_set, hij, hj], by simp [hij]⟩
    | returned x =>
      simp only [Call.step]
      rw [set_of_getElem? σ.calls i (.returned x) hi]
      refine ⟨rfl, hthrew, ⟨d, hfind, hperm⟩, ?_⟩
      intro j c hj
      refine ⟨c, hj, ?_⟩
      by_cases hij : i = j
      · subst hij
        rw [hi] at hj
        cases hj
        simp [Call.phase]
      · simp [hij]
    | threw e => exact absurd rfl (hthrew _ hmem e)

theorem Concurrent.run_invariant (S : String) (v : Int) (schedule : List Nat)
    (hlo : -2 ^ 53 ≤ v) :
    ∀ σ : Concurrent, v + σ.calls.length ≤ 2 ^ 53 →
    (∀ c ∈ σ.calls, ∀ e, c ≠ Call.threw e) →
    (∃ d : Nat, Counter.findById σ.counters S = some ⟨S, v + d⟩ ∧
      (σ.calls.filterMap Call.value).Perm ((List.range d).map (fun k : Nat => v + 1 + (k : Int)))) →
    (Concurrent.run S σ schedule).calls.length = σ.calls.length ∧
    (∀ c ∈ (Concurrent.run S σ schedule).calls, ∀ e, c ≠ Call.threw e) ∧
    (∃ d : Nat, Counter.findById (Concurrent.run S σ schedule).counters S = some ⟨S, v + d⟩ ∧
      ((Concurrent.run S σ schedule).calls.filterMap Call.value).Perm
        ((List.range d).map (fun k : Nat => v + 1 + (k : Int)))) ∧
    (∀ j c, σ.calls[j]? = some c → ∃ c1, (Concurrent.run S σ schedule).calls[j]? = some c1 ∧
      min (c.phase + schedule.count j) 2 ≤ c1.phase) := by
  induction schedule with
  | nil =>
    intro σ _ hthrew hinv
    exact ⟨rfl, hthrew, hinv, fun j c hj => ⟨c, hj, by simp⟩⟩
  | cons i rest ih =>
    intro σ hhi hthrew hinv
    obtain ⟨hl, ht, hi, hp⟩ := Concurrent.step_invariant S v σ i hlo hhi hthrew hinv
    obtain ⟨hl2, ht2, hi2, hp2⟩ := ih (Concurrent.step S σ i) (by rw [hl]; exact hhi) ht hi
    have hrun : Concurrent.run S σ (i :: rest)
        = Concurrent.run S (Concurrent.step S σ i) rest := rfl
    rw [hrun]
    refine ⟨hl2.trans hl, ht2, hi2, ?_⟩
    intro j c hj
    obtain ⟨c1, hc1, hph1⟩ := hp j c hj
    obtain ⟨c2, hc2, hph2⟩ := hp2 j c1 hc1
    refine ⟨c2, hc2, ?_⟩
    rw [List.count_cons]
    by_cases hij : i = j
    · subst hij
      simp only [if_true] at hph1
      simp only [beq_self_eq_true, if_true]
      omega
    · have hne : (i == j) = false := by simpa using hij
      simp only [hij, if_false] at hph1
      simp only [hne]
      simp only [Bool.false_eq_true, if_false]
      omega

/-- One call served alone, both operations in a row, is `getNextSequenceValue`. -/
theorem Concurrent.run_single (cs : List Counter) (S : String) :
    Concurrent.run S ⟨cs, [.start]⟩ [0, 0]
      = ⟨(getNextSequenceValue cs S).2,
          [match (getNextSequenceValue cs S).1 with
            | .ok value => Call.returned value
            | .error e => Call.threw e]⟩ := by
  unfold getNextSequenceValue
  cases h : Counter.findById cs S with
  | none => simp [Concurrent.run, Concurrent.step, Call.step, h]
  | some d =>
    rcases hr : Counter.findByIdAndUpdate cs S with ⟨r, cs1⟩
    cases r <;> simp [Concurrent.run, Concurrent.step, Call.step, h, hr]

/-- C3, as amended: with a Counter for `S` holding `v`, where `-2 ^ 53 ≤ v` and
`v + N ≤ 2 ^ 53`, `N` calls of `getNextSequenceValue(S)` whose store operations (each call:
the existence read, then the increment-and-fetch) are served in any order, every call being
served both of its operations, all return, and the values they return are
`v + 1, ..., v + N` in some order, pairwise distinct. -/
theorem getNextSequenceValue_concurrent (cs : List Counter) (S : String) (v : Int) (N : Nat)
    (schedule : List Nat)
    (hseed : Counter.findById cs S = some ⟨S, v⟩)
    (hlo : -2 ^ 53 ≤ v) (hhi : v + N ≤ 2 ^ 53)
    (hserved : ∀ i, i < N → 2 ≤ schedule.count i) :
    (Concurrent.run S ⟨cs, List.replicate N .start⟩ schedule).calls.Perm
        ((List.range N).map (fun k : Nat => Call.returned (v + 1 + (k : Int)))) ∧
      (Concurrent.run S ⟨cs, List.replicate N .start⟩ schedule).calls.Nodup := by
  have hinj : Function.Injective (fun k : Nat => Call.returned (v + 1 + (k : Int))) := by
    intro a b hab
    simp only [Call.returned.injEq] at hab
    omega
  obtain ⟨hlen, hthrew, ⟨d, -, hperm⟩, hphase⟩ :=
    Concurrent.run_invariant S v schedule hlo ⟨cs, List.replicate N .start⟩
      (by simpa using hhi)
      (by intro c hc e; simp only [List.mem_replicate] at hc; rw [hc.2]; simp)
      ⟨0, by simpa using hseed, by simp [List.filterMap_replicate, Call.value]⟩
  simp only [List.length_replicate] at hlen
  have hall : ∀ c ∈ (Concurrent.run S ⟨cs, List.replicate N .start⟩ schedule).calls,
      ∃ r, c = Call.returned r := by
    intro c hc
    obtain ⟨j, hj⟩ := List.mem_iff_getElem?.mp hc
    have hjN : j < N := hlen ▸ (List.getElem?_eq_some.mp hj).1
    obtain ⟨c1, hc1, hph⟩ := hphase j .start (by simp [List.getElem?_replicate, hjN])
    rw [hj] at hc1
    cases hc1
    have h2 := hserved j hjN
    cases c with
    | start => simp only [Call.phase] at hph; omega
    | found => simp only [Call.phase] at hph; omega
    | returned r => exact ⟨r, rfl⟩
    | threw e => exact absurd rfl (hthrew _ hc e)
  have heq := Call.eq_map_returned _ hall
  have hd : d = N := by
    have h1 := hperm.length_eq
    have h2 := congrArg List.length heq
    simp only [List.length_map, List.length_range] at h1 h2
    omega
  subst hd
  have hfinal : (Concurrent.run S ⟨cs, List.replicate d .start⟩ schedule).calls.Perm
      ((List.range d).map (fun k : Nat => Call.returned (v + 1 + (k : Int)))) := by
    rw [heq]
    have := hperm.map Call.returned
    simpa [List.map_map, Function.comp_def] using this
  exact ⟨hfinal, (hfinal.nodup_iff).mpr ((List.nodup_range d).map hinj)⟩

theorem getNextSequenceValue_concurrent_witness :
    Counter.findById [⟨"crop", 5⟩] "crop" = some ⟨"crop", 5⟩ ∧
      (∀ i, i < 3 → 2 ≤ [2, 0, 1, 1, 0, 2].count i) ∧
      (Concurrent.run "crop" ⟨[⟨"crop", 5⟩], List.replicate 3 .start⟩
          [2, 0, 1, 1, 0, 2]).calls.Perm
        ((List.range 3).map (fun k : Nat => Call.returned (5 + 1 + (k : Int)))) ∧
      (Concurrent.run "crop" ⟨[⟨"crop", 5⟩], List.replicate 3 .start⟩
          [2, 0, 1, 1, 0, 2]).calls.Nodup :=
  ⟨by decide, by decide,
    getNextSequenceValue_concurrent [⟨"crop", 5⟩] "crop" 5 3 [2, 0, 1, 1, 0, 2]
      (by decide) (by decide) (by decide) (by decide)⟩

/-- C3 as the claim states it fails: the Counter for `crop` holds `2 ^ 53`, and two calls
served one after the other both return `2 ^ 53`: the same value twice, and neither
`2 ^ 53 + 1` nor `2 ^ 53 + 2`. -/
theorem getNextSequenceValue_concurrent_at_limit :
    (Concurrent.run "crop" ⟨[⟨"crop", 9007199254740992⟩], List.replicate 2 .start⟩
        [0, 0, 1, 1]).calls
      = [.returned 9007199254740992, .returned 9007199254740992] ∧
    ¬ (Concurrent.run "crop" ⟨[⟨"crop", 9007199254740992⟩], List.replicate 2 .start⟩
        [0, 0, 1, 1]).calls.Nodup := by
  have h : (Concurrent.run "crop" ⟨[⟨"crop", 9007199254740992⟩], List.replicate 2 .start⟩
      [0, 0, 1, 1]).calls
      = [.returned 9007199254740992, .returned 9007199254740992] := by decide
  rw [h]
  exact ⟨rfl, by decide⟩

/-! ### `parseInt` on decimal representations -/

theorem digitChar_isDigit (k : Nat) (hk : k < 10) :
    (Nat.digitChar k).isDigit = true ∧ (Nat.digitChar k).toNat - 48 = k := by
  interval_cases k <;> decide

theorem digitsValue_append (l : List Char) (c : Char) :
    digitsValue (l ++ [c]) = 10 * digitsValue l + (c.toNat - 48) := by
  simp [digitsValue, List.foldl_append]

theorem toDigitsCore_spec (fuel : Nat) : ∀ (n : Nat) (ds : List Char), n < fuel →
    ∃ l, Nat.toDigitsCore 10 fuel n ds = l ++ ds ∧ l ≠ [] ∧
      (∀ c ∈ l, c.isDigit = true) ∧ digitsValue l = n := by
  induction fuel with
  | zero => intro n ds h; omega
  | succ f ih =>
    intro n ds h
    obtain ⟨hd, hv⟩ := digitChar_isDigit (n % 10) (Nat.mod_lt _ (by decide))
    unfold Nat.toDigitsCore
    by_cases h0 : n / 10 = 0
    · refine ⟨[Nat.digitChar (n % 10)], by simp [h0], by simp, by simpa using hd, ?_⟩
      simp only [digitsValue, List.foldl_cons, List.foldl_nil]
      omega
    · obtain ⟨l, hl, -, hall, hval⟩ := ih (n / 10) (Nat.digitChar (n % 10) :: ds) (by omega)
      refine ⟨l ++ [Nat.digitChar (n % 10)], by simp [h0, hl], by simp, ?_, ?_⟩
      · intro c hc
        rcases List.mem_append.mp hc with h1 | h1
        · exact hall c h1
        · simp only [List.mem_singleton] at h1
          rw [h1]; exact hd
      · rw [digitsValue_append, hval, hv]
        omega

theorem parseDigits_of_digits (l : List Char) (hne : l ≠ []) (hall : ∀ c ∈ l, c.isDigit = true) :
    parseDigits l = some (digitsValue l) := by
  have ht : l.takeWhile Char.isDigit = l := List.takeWhile_eq_self_iff.mpr hall
  unfold parseDigits
  rw [ht]
  cases l with
  | nil => exact absurd rfl hne
  | cons d ds => rfl

theorem parseDigits_repr (n : Nat) : parseDigits (Nat.repr n).toList = some n := by
  obtain ⟨l, hl, hne, hall, hval⟩ := toDigitsCore_spec (n + 1) n [] (by omega)
  have : (Nat.repr n).toList = l := by
    simp [Nat.repr, Nat.toDigits, hl, List.asString]
  rw [this, parseDigits_of_digits l hne hall, hval]

theorem parseInt_of_digit_head (c : Char) (cs : List Char) (hc : c.isDigit = true) (s : String)
    (hs : s.toList = c :: cs) :
    parseInt s
      = (parseDigits (c :: cs)).map (fun n => ((roundNatToDouble n : Nat) : Int)) := by
  have hb : 48 ≤ c.toNat ∧ c.toNat ≤ 57 := by
    simp only [Char.isDigit, Bool.and_eq_true, decide_eq_true_eq] at hc
    exact ⟨hc.1, hc.2⟩
  have hw : isStrWhiteSpaceChar c = false := by
    simp only [isStrWhiteSpaceChar, decide_eq_false_iff_not, List.mem_cons, List.mem_singleton,
      List.mem_nil_iff, or_false, not_or]
    omega
  unfold parseInt
  rw [hs, List.dropWhile_cons, hw]
  simp only [Bool.false_eq_true, if_false]
  split
  · rename_i rest heq
    simp only [List.cons.injEq] at heq
    rw [heq.1] at hc
    exact absurd hc (by decide)
  · rename_i rest heq
    simp only [List.cons.injEq] at heq
    rw [heq.1] at hc
    exact absurd hc (by decide)
  · rfl

theorem parseInt_repr (n : Nat) :
    parseInt (Nat.repr n) = some ((roundNatToDouble n : Nat) : Int) := by
  obtain ⟨l, hl, hne, hall, hval⟩ := toDigitsCore_spec (n + 1) n [] (by omega)
  have hlist : (Nat.repr n).toList = l := by
    simp [Nat.repr, Nat.toDigits, hl, List.asString]
  cases l with
  | nil => exact absurd rfl hne
  | cons c cs =>
    rw [parseInt_of_digit_head c cs (hall c (List.mem_cons_self c cs)) _ hlist,
      parseDigits_of_digits _ hne hall, hval]
    rfl

/-- The decimal representation of an integer reads back as the double nearest to it. -/
theorem parseInt_toString_round (p : Int) :
    parseInt (toString p) = some (roundToDouble p) := by
  cases p with
  | ofNat n =>
    have h : toString (Int.ofNat n) = Nat.repr n := rfl
    rw [h, parseInt_repr]
    have hpos : ¬ ((n : Int) < 0) := by omega
    simp [roundToDouble, hpos]
  | negSucc n =>
    have h : (toString (Int.negSucc n)) = "-" ++ Nat.repr (n + 1) := rfl
    have hl : (toString (Int.negSucc n)).toList = '-' :: (Nat.repr (n + 1)).toList := by
      rw [h]
      simp [String.toList, String.data_append]
    unfold parseInt
    rw [hl]
    have hw : isStrWhiteSpaceChar '-' = false := by decide
    rw [List.dropWhile_cons, hw]
    simp only [Bool.false_eq_true, if_false]
    rw [parseDigits_repr]
    have hneg : Int.negSucc n < 0 := Int.negSucc_lt_zero n
    simp [roundToDouble, hneg, Int.natAbs_negSucc]

/-- The decimal representation of an integer of magnitude at most `2 ^ 53` reads back as
that integer. -/
theorem parseInt_toString (p : Int) (hlo : -2 ^ 53 ≤ p) (hhi : p ≤ 2 ^ 53) :
    parseInt (toString p) = some p := by
  rw [parseInt_toString_round, roundToDouble_of_safe p hlo hhi]

/-! ### The crop/price join -/

theorem getCropsByPlace_of_parseInt (st : Store) (placeId : String) (p : Int)
    (hp : parseInt placeId = some p) :
    getCropsByPlace st placeId = ⟨200, .rows (cropsForPlace st p)⟩ := by
  unfold getCropsByPlace
  rw [hp]
  cases h : cropsForPlace st p <;> simp [h]

theorem mem_cropsForPlace (st : Store) (p : Int) (pr : Price) (doc : Option Crop)
    (hmem : pr ∈ st.prices) (hplace : pr.place_id = p)
    (hdoc : (pr, doc) ∈ unwindCropDetails pr (lookupCropDetails st.crops pr)) :
    projectRow (pr, doc) ∈ cropsForPlace st p := by
  unfold cropsForPlace
  refine List.mem_map.mpr ⟨(pr, doc), ?_, rfl⟩
  refine List.mem_flatMap.mpr ⟨pr, ?_, hdoc⟩
  exact List.mem_filter.mpr ⟨hmem, by simp [hplace]⟩

/-- C4: a Price record of place `p` whose `crop_id` is the `id` of no Crop record has its
row in the answer of `GET /crops/:placeId`, which is a 200: the row carries the record's
`id`, `price` and `month_year`, with `crop_name = "Unknown"` and `avg_price = 0`. -/
theorem getCropsByPlace_dangling_crop (st : Store) (placeId : String) (p : Int) (pr : Price)
    (hp : parseInt placeId = some p) (hmem : pr ∈ st.prices) (hplace : pr.place_id = p)
    (hdangling : ∀ c ∈ st.crops, c.id ≠ some pr.crop_id) :
    ∃ rows, getCropsByPlace st placeId = ⟨200, .rows rows⟩ ∧
      (⟨pr.id, "Unknown", pr.price, pr.month_year, .num 0⟩ : CropRow) ∈ rows := by
  refine ⟨cropsForPlace st p, getCropsByPlace_of_parseInt st placeId p hp, ?_⟩
  have hlook : lookupCropDetails st.crops pr = [] := by
    unfold lookupCropDetails
    rw [List.filter_eq_nil_iff]
    intro c hc
    simpa using hdangling c hc
  have := mem_cropsForPlace st p pr none hmem hplace (by rw [hlook]; simp [unwindCropDetails])
  simpa [projectRow, ifNullStr, ifNull] using this

theorem getCropsByPlace_dangling_crop_witness :
    ∃ rows,
      getCropsByPlace
          ⟨[], [], [], [], [], [⟨some 2, some "Rice", some (.num 40)⟩],
            [⟨some 9, 4, 1, some (.num 35), some "Jan 2024"⟩], []⟩ "4"
        = ⟨200, .rows rows⟩ ∧
      (⟨some 9, "Unknown", some (.num 35), some "Jan 2024", .num 0⟩ : CropRow) ∈ rows :=
  getCropsByPlace_dangling_crop
    ⟨[], [], [], [], [], [⟨some 2, some "Rice", some (.num 40)⟩],
      [⟨some 9, 4, 1, some (.num 35), some "Jan 2024"⟩], []⟩ "4" 4
    ⟨some 9, 4, 1, some (.num 35), some "Jan 2024"⟩
    (by decide) (by simp) rfl (by simp)

/-- C5, as amended: a Price record of place `p` and a Crop record whose `id` is its
`crop_id`, with a `crop_name` and an `avg_price` that are neither null nor missing, give a
row of `GET /crops/:placeId` that carries that `crop_name` and that `avg_price` as stored,
and the record's `id`, `price` and `month_year` as stored, null or missing included. -/
theorem getCropsByPlace_matched_crop (st : Store) (placeId : String) (p : Int) (pr : Price)
    (c : Crop) (name : String) (a : JVal)
    (hp : parseInt placeId = some p) (hmem : pr ∈ st.prices) (hplace : pr.place_id = p)
    (hc : c ∈ st.crops) (hid : c.id = some pr.crop_id)
    (hname : c.crop_name = some name) (havg : c.avg_price = some a) (hnull : a ≠ .null) :
    ∃ rows, getCropsByPlace st placeId = ⟨200, .rows rows⟩ ∧
      (⟨pr.id, name, pr.price, pr.month_year, a⟩ : CropRow) ∈ rows := by
  refine ⟨cropsForPlace st p, getCropsByPlace_of_parseInt st placeId p hp, ?_⟩
  have hlook : c ∈ lookupCropDetails st.crops pr :=
    List.mem_filter.mpr ⟨hc, by simp [hid]⟩
  have hun : (pr, some c) ∈ unwindCropDetails pr (lookupCropDetails st.crops pr) := by
    cases hl : lookupCropDetails st.crops pr with
    | nil => rw [hl] at hlook; cases hlook
    | cons x xs =>
      rw [hl] at hlook
      exact List.mem_map.mpr ⟨c, hlook, rfl⟩
  have := mem_cropsForPlace st p pr (some c) hmem hplace hun
  have hif : ifNull (some a) (.num 0) = a := by
    cases a <;> first | rfl | exact absurd rfl hnull
  simpa [projectRow, ifNullStr, hname, havg, hif] using this

theorem getCropsByPlace_matched_crop_witness :
    ∃ rows,
      getCropsByPlace
          ⟨[], [], [], [], [], [⟨some 1, some "Rice", some (.obj [("min", .num 30)])⟩],
            [⟨some 9, 4, 1, some .null, none⟩], []⟩ "4"
        = ⟨200, .rows rows⟩ ∧
      (⟨some 9, "Rice", some .null, none, .obj [("min", .num 30)]⟩ : CropRow) ∈ rows :=
  getCropsByPlace_matched_crop
    ⟨[], [], [], [], [], [⟨some 1, some "Rice", some (.obj [("min", .num 30)])⟩],
      [⟨some 9, 4, 1, some .null, none⟩], []⟩ "4" 4
    ⟨some 9, 4, 1, some .null, none⟩ ⟨some 1, some "Rice", some (.obj [("min", .num 30)])⟩
    "Rice" (.obj [("min", .num 30)])
    (by decide) (by simp) rfl (by simp) rfl rfl rfl (by simp)

/-- C5 as the claim states it fails: the Crop record of `crop_id` 1 holds `avg_price`
null, and the one row of the answer has `avg_price = 0`, not the stored null. -/
theorem getCropsByPlace_null_avg_price :
    getCropsByPlace
        ⟨[], [], [], [], [], [⟨some 1, some "Rice", some .null⟩],
          [⟨some 9, 4, 1, some (.num 35), some "Jan 2024"⟩], []⟩ "4"
      = ⟨200, .rows [⟨some 9, "Rice", some (.num 35), some "Jan 2024", .num 0⟩]⟩ ∧
    ¬ ∃ row ∈ cropsForPlace
        ⟨[], [], [], [], [], [⟨some 1, some "Rice", some .null⟩],
          [⟨some 9, 4, 1, some (.num 35), some "Jan 2024"⟩], []⟩ 4,
      some row.avg_price = (⟨some 1, some "Rice", some .null⟩ : Crop).avg_price := by
  constructor
  · rw [getCropsByPlace_of_parseInt _ "4" 4 (by decide)]
    rfl
  · have h : cropsForPlace
        ⟨[], [], [], [], [], [⟨some 1, some "Rice", some .null⟩],
          [⟨some 9, 4, 1, some (.num 35), some "Jan 2024"⟩], []⟩ 4
        = [⟨some 9, "Rice", some (.num 35), some "Jan 2024", .num 0⟩] := rfl
    rw [h]
    simp

/-- C6, as amended: for an integer `p` of magnitude at most `2 ^ 53`, when no Price
record has `place_id = p`, `GET /crops/:placeId` answers 200 with the empty list, whatever
the Crop collection: for the decimal representation of `p`, and for every other path
parameter that `parseInt` reads as `p`. -/
theorem getCropsByPlace_no_prices (st : Store) (p : Int)
    (hlo : -2 ^ 53 ≤ p) (hhi : p ≤ 2 ^ 53)
    (hnone : ∀ pr ∈ st.prices, pr.place_id ≠ p) :
    getCropsByPlace st (toString p) = ⟨200, .rows []⟩ ∧
      ∀ placeId, parseInt placeId = some p →
        getCropsByPlace st placeId = ⟨200, .rows []⟩ := by
  have hf : st.prices.filter (fun q => decide (q.place_id = p)) = [] := by
    rw [List.filter_eq_nil_iff]
    intro pr hpr
    simpa using hnone pr hpr
  have hall : ∀ placeId, parseInt placeId = some p →
      getCropsByPlace st placeId = ⟨200, .rows []⟩ := by
    intro placeId hp
    rw [getCropsByPlace_of_parseInt st placeId p hp]
    simp [cropsForPlace, hf]
  exact ⟨hall _ (parseInt_toString p hlo hhi), hall⟩

theorem getCropsByPlace_no_prices_witness :
    getCropsByPlace
        ⟨[], [], [], [], [], [⟨some 1, some "Rice", some (.num 40)⟩],
          [⟨some 9, 4, 1, some (.num 35), some "Jan 2024"⟩], []⟩ (toString (-12 : Int))
      = ⟨200, .rows []⟩ ∧
    ∀ placeId, parseInt placeId = some (-12) →
      getCropsByPlace
          ⟨[], [], [], [], [], [⟨some 1, some "Rice", some (.num 40)⟩],
            [⟨some 9, 4, 1, some (.num 35), some "Jan 2024"⟩], []⟩ placeId
        = ⟨200, .rows []⟩ :=
  getCropsByPlace_no_prices
    ⟨[], [], [], [], [], [⟨some 1, some "Rice", some (.num 40)⟩],
      [⟨some 9, 4, 1, some (.num 35), some "Jan 2024"⟩], []⟩ (-12) (by decide) (by decide)
    (by simp)

/-- C6 as the claim states it fails: no Price record has `place_id` `2 ^ 53 + 1`, one has
`2 ^ 53`, and `GET /crops/9007199254740993` answers with the row of that record, not with
the empty list: `parseInt` gives the double nearest to the digits, which is `2 ^ 53`. -/
theorem getCropsByPlace_beyond_safe :
    toString (9007199254740993 : Int) = "9007199254740993" ∧
    (∀ pr ∈ (⟨[], [], [], [], [], [],
        [⟨some 9, 9007199254740992, 1, some (.num 35), some "Jan 2024"⟩], []⟩ : Store).prices,
      pr.place_id ≠ 9007199254740993) ∧
    getCropsByPlace
        ⟨[], [], [], [], [], [],
          [⟨some 9, 9007199254740992, 1, some (.num 35), some "Jan 2024"⟩], []⟩
        "9007199254740993"
      = ⟨200, .rows [⟨some 9, "Unknown", some (.num 35), some "Jan 2024", .num 0⟩]⟩ := by
  refine ⟨by decide, by simp, ?_⟩
  rw [getCropsByPlace_of_parseInt _ "9007199254740993" 9007199254740992 (by decide)]
  rfl

/-! ### `POST /add-price` -/

theorem addPrice_success (st : Store) (b : AddPriceBody)
    (hok : (addPrice st b).1.status = 200) :
    st.prices.find?
        (fun p => decide (p.place_id = b.place_id) && decide (p.crop_id = b.crop_id)) = none ∧
      ∃ priceId, (addPrice st b).2.prices
        = st.prices ++
          [⟨some priceId, b.place_id, b.crop_id, b.price.bind JVal.minimize,
            b.month_year⟩] := by
  unfold addPrice at hok ⊢
  cases hf : st.prices.find?
      (fun p => decide (p.place_id = b.place_id) && decide (p.crop_id = b.crop_id)) with
  | some x => rw [hf] at hok; simp at hok
  | none =>
    rw [hf] at hok
    refine ⟨rfl, ?_⟩
    simp only at hok ⊢
    rcases hg : getNextSequenceValue st.counters "price" with ⟨r, cs⟩
    rw [hg] at hok
    cases r with
    | error e => simp at hok
    | ok priceId =>
      refine ⟨priceId, ?_⟩
      by_cases hany : st.prices.any (fun p => decide (p.id = some priceId)) = true
      · simp [Price.save, hany] at hok
      · simp [Price.save, Price.toObject, hany]

/-- C7: after a `POST /add-price` that succeeded for a pair `(place_id, crop_id)`, a second
`POST /add-price` with the same pair, whatever its `price` and `month_year`, is answered
400 and leaves the store as it was; the store then holds exactly one Price record of that
pair. -/
theorem addPrice_duplicate_pair (st : Store) (b1 b2 : AddPriceBody)
    (hok : (addPrice st b1).1.status = 200)
    (hplace : b2.place_id = b1.place_id) (hcrop : b2.crop_id = b1.crop_id) :
    addPrice (addPrice st b1).2 b2
        = (⟨400, .error "Crop is already available in the location"⟩, (addPrice st b1).2) ∧
      ((addPrice (addPrice st b1).2 b2).2.prices.filter
        (fun p => decide (p.place_id = b1.place_id) && decide (p.crop_id = b1.crop_id))).length
        = 1 := by
  obtain ⟨hnone, priceId, hprices⟩ := addPrice_success st b1 hok
  have hfind : ∃ x, (addPrice st b1).2.prices.find?
      (fun p => decide (p.place_id = b2.place_id) && decide (p.crop_id = b2.crop_id))
        = some x := by
    refine ⟨⟨some priceId, b1.place_id, b1.crop_id, b1.price.bind JVal.minimize,
      b1.month_year⟩, ?_⟩
    rw [hprices, hplace, hcrop, List.find?_append, hnone]
    simp
  obtain ⟨x, hx⟩ := hfind
  have hsecond : addPrice (addPrice st b1).2 b2
      = (⟨400, .error "Crop is already available in the location"⟩, (addPrice st b1).2) := by
    generalize (addPrice st b1).2 = st1 at hx ⊢
    unfold addPrice
    rw [hx]
  refine ⟨hsecond, ?_⟩
  rw [hsecond, hprices, List.filter_append]
  have hempty : st.prices.filter
      (fun p => decide (p.place_id = b1.place_id) && decide (p.crop_id = b1.crop_id)) = [] := by
    rw [List.filter_eq_nil_iff]
    exact List.find?_eq_none.mp hnone
  rw [hempty]
  simp

theorem addPrice_duplicate_pair_witness :
    (addPrice ⟨[], [], [], [], [], [], [], [⟨"price", 0⟩]⟩
        ⟨4, 1, some (.num 35), some "Jan 2024"⟩).1.status = 200 ∧
      addPrice (addPrice ⟨[], [], [], [], [], [], [], [⟨"price", 0⟩]⟩
          ⟨4, 1, some (.num 35), some "Jan 2024"⟩).2 ⟨4, 1, some (.num 50), none⟩
        = (⟨400, .error "Crop is already available in the location"⟩,
            (addPrice ⟨[], [], [], [], [], [], [], [⟨"price", 0⟩]⟩
              ⟨4, 1, some (.num 35), some "Jan 2024"⟩).2) ∧
      ((addPrice (addPrice ⟨[], [], [], [], [], [], [], [⟨"price", 0⟩]⟩
          ⟨4, 1, some (.num 35), some "Jan 2024"⟩).2
            ⟨4, 1, some (.num 50), none⟩).2.prices.filter
        (fun p => decide (p.place_id = 4) && decide (p.crop_id = 1))).length = 1 :=
  ⟨by decide,
    addPrice_duplicate_pair ⟨[], [], [], [], [], [], [], [⟨"price", 0⟩]⟩
      ⟨4, 1, some (.num 35), some "Jan 2024"⟩ ⟨4, 1, some (.num 50), none⟩
      (by decide) rfl rfl⟩

/-! ### `POST /login` -/

/-- C8: a login for a username that no User record has, and a login for the username of a
User record with a password that does not match the stored hash, get the same response:
401 with `success: false` and the message "Invalid credentials". -/
theorem login_invalid_credentials (compare : String → String → Bool) (st : Store)
    (unknown known : LoginBody) (user : User) (password hash : String)
    (habsent : ∀ u ∈ st.users, u.username ≠ unknown.username)
    (hfound : st.users.find? (fun u => decide (u.username = known.username)) = some user)
    (hpassword : known.password = some password) (hhash : user.password = some hash)
    (hwrong : compare password hash = false) :
    login compare st unknown = ⟨401, .login false (some "Invalid credentials") none⟩ ∧
      login compare st known = login compare st unknown := by
  have hnone : st.users.find? (fun u => decide (u.username = unknown.username)) = none := by
    rw [List.find?_eq_none]
    intro u hu
    simpa using habsent u hu
  have h1 : login compare st unknown
      = ⟨401, .login false (some "Invalid credentials") none⟩ := by
    unfold login
    rw [hnone]
  refine ⟨h1, ?_⟩
  rw [h1]
  simp [login, hfound, hpassword, hhash, hwrong]

theorem login_invalid_credentials_witness :
    login (fun password hash => decide (hash = "hash:" ++ password))
        ⟨[⟨some 1, "alice", none, none, none, none, none, some "hash:correct", 1, "user"⟩],
          [], [], [], [], [], [], []⟩ ⟨"nosuchuser", some "x"⟩
      = ⟨401, .login false (some "Invalid credentials") none⟩ ∧
    login (fun password hash => decide (hash = "hash:" ++ password))
        ⟨[⟨some 1, "alice", none, none, none, none, none, some "hash:correct", 1, "user"⟩],
          [], [], [], [], [], [], []⟩ ⟨"alice", some "wrong"⟩
      = login (fun password hash => decide (hash = "hash:" ++ password))
        ⟨[⟨some 1, "alice", none, none, none, none, none, some "hash:correct", 1, "user"⟩],
          [], [], [], [], [], [], []⟩ ⟨"nosuchuser", some "x"⟩ :=
  login_invalid_credentials (fun password hash => decide (hash = "hash:" ++ password))
    ⟨[⟨some 1, "alice", none, none, none, none, none, some "hash:correct", 1, "user"⟩],
      [], [], [], [], [], [], []⟩ ⟨"nosuchuser", some "x"⟩ ⟨"alice", some "wrong"⟩
    ⟨some 1, "alice", none, none, none, none, none, some "hash:correct", 1, "user"⟩
    "wrong" "hash:correct" (by decide) (by decide) rfl rfl (by decide)

/-- C9: a login with the username of a User record whose `activation` is 0 and a password
that matches the stored hash is answered 200 with `success: false` and the message
"Account not activated"; the body is never one with `success: true`. -/
theorem login_not_activated (compare : String → String → Bool) (st : Store)
    (body : LoginBody) (user : User) (password hash : String)
    (hfound : st.users.find? (fun u => decide (u.username = body.username)) = some user)
    (hactivation : user.activation = 0)
    (hpassword : body.password = some password) (hhash : user.password = some hash)
    (hmatch : compare password hash = true) :
    login compare st body = ⟨200, .login false (some "Account not activated") none⟩ ∧
      ∀ message userType, (login compare st body).body ≠ .login true message userType := by
  have h1 : login compare st body
      = ⟨200, .login false (some "Account not activated") none⟩ := by
    simp [login, hfound, hpassword, hhash, hmatch, hactivation]
  refine ⟨h1, ?_⟩
  intro message userType
  rw [h1]
  simp

theorem login_not_activated_witness :
    login (fun password hash => decide (hash = "hash:" ++ password))
        ⟨[⟨some 1, "alice", none, none, none, none, none, some "hash:correct", 0, "user"⟩],
          [], [], [], [], [], [], []⟩ ⟨"alice", some "correct"⟩
      = ⟨200, .login false (some "Account not activated") none⟩ ∧
    ∀ message userType,
      (login (fun password hash => decide (hash = "hash:" ++ password))
        ⟨[⟨some 1, "alice", none, none, none, none, none, some "hash:correct", 0, "user"⟩],
          [], [], [], [], [], [], []⟩ ⟨"alice", some "correct"⟩).body
        ≠ .login true message userType :=
  login_not_activated (fun password hash => decide (hash = "hash:" ++ password))
    ⟨[⟨some 1, "alice", none, none, none, none, none, some "hash:correct", 0, "user"⟩],
      [], [], [], [], [], [], []⟩ ⟨"alice", some "correct"⟩
    ⟨some 1, "alice", none, none, none, none, none, some "hash:correct", 0, "user"⟩
    "correct" "hash:correct" (by decide) rfl rfl rfl (by decide)

/-! ### `POST /add-crop` -/

theorem Crop.save_ok (crops : List Crop) (cropId : Int) (c : String) (a : JVal)
    (hname : 0 < c.length) (hnull : a ≠ .null) (hmin : JVal.minimize a = some a)
    (hid : ∀ x ∈ crops, x.id ≠ some cropId) :
    Crop.save crops ⟨some cropId, some c, some a⟩
      = .ok (crops ++ [⟨some cropId, some c, some a⟩]) := by
  have hany : crops.any (fun x => decide (x.id = some cropId)) = false := by
    rw [List.any_eq_false]
    intro x hx
    simpa using hid x hx
  have hreq : mixedRequired (some a) = true := by
    cases a <;> first | rfl | exact absurd rfl hnull
  simp [Crop.save, Crop.validate, Crop.toObject, stringRequired, hname, hreq, hany, hmin]

/-- C10, as amended: from a store whose `crop` counter holds `n`, from `-2 ^ 53` to
`2 ^ 53 - 1`, with no Crop named `c` and no Crop of id `n + 1`, for a non-empty name `c` and
an `avg_price` `a` that is not null and that `minimize` leaves as it is (it holds no object
without keys to drop), `POST /add-crop` with `c` and `a` is answered 200 and stores the Crop
`(n + 1, c, a)`; a second `POST /add-crop` with the name `c` and any `avg_price` is then
answered 400 and leaves the store as it was. -/
theorem addCrop_then_duplicate (st : Store) (n : Int) (c : String) (a : JVal)
    (b : Option JVal)
    (hseed : Counter.findById st.counters "crop" = some ⟨"crop", n⟩)
    (hlo : -2 ^ 53 ≤ n) (hhi : n < 2 ^ 53)
    (hfresh : ∀ x ∈ st.crops, x.crop_name ≠ some c)
    (hname : 0 < c.length) (hnull : a ≠ .null) (hmin : JVal.minimize a = some a)
    (hid : ∀ x ∈ st.crops, x.id ≠ some (n + 1)) :
    (addCrop st ⟨c, some a⟩).1
        = ⟨200, .cropAdded "Crop added successfully" ⟨some (n + 1), some c, some a⟩⟩ ∧
      (addCrop st ⟨c, some a⟩).2.crops = st.crops ++ [⟨some (n + 1), some c, some a⟩] ∧
      addCrop (addCrop st ⟨c, some a⟩).2 ⟨c, b⟩
        = (⟨400, .error "Crop already exists"⟩, (addCrop st ⟨c, some a⟩).2) := by
  have hnone : st.crops.find? (fun x => decide (x.crop_name = some c)) = none := by
    rw [List.find?_eq_none]
    intro x hx
    simpa using hfresh x hx
  obtain ⟨cs1, hnext, -⟩ := getNextSequenceValue_of_findById st.counters "crop" n hseed
  rw [roundToDouble_of_safe (n + 1) (by omega) (by omega)] at hnext
  have hsave := Crop.save_ok st.crops (n + 1) c a hname hnull hmin hid
  have hfirst : addCrop st ⟨c, some a⟩
      = (⟨200, .cropAdded "Crop added successfully" ⟨some (n + 1), some c, some a⟩⟩,
          { st with counters := cs1,
                    crops := st.crops ++ [⟨some (n + 1), some c, some a⟩] }) := by
    simp only [addCrop, hnone, hnext, hsave, Crop.toObject, Option.bind, hmin]
  rw [hfirst]
  refine ⟨rfl, rfl, ?_⟩
  have hfound : ∃ x, (st.crops ++ [(⟨some (n + 1), some c, some a⟩ : Crop)]).find?
      (fun x => decide (x.crop_name = some c)) = some x := by
    refine ⟨⟨some (n + 1), some c, some a⟩, ?_⟩
    rw [List.find?_append, hnone]
    simp
  obtain ⟨x, hx⟩ := hfound
  simp only [addCrop, hx]

theorem addCrop_then_duplicate_witness :
    (addCrop ⟨[], [], [], [], [], [], [], [⟨"crop", 0⟩]⟩ ⟨"Rice", some (.num 40)⟩).1
        = ⟨200, .cropAdded "Crop added successfully"
            ⟨some (0 + 1), some "Rice", some (.num 40)⟩⟩ ∧
      (addCrop ⟨[], [], [], [], [], [], [], [⟨"crop", 0⟩]⟩ ⟨"Rice", some (.num 40)⟩).2.crops
        = [] ++ [⟨some (0 + 1), some "Rice", some (.num 40)⟩] ∧
      addCrop
          (addCrop ⟨[], [], [], [], [], [], [], [⟨"crop", 0⟩]⟩ ⟨"Rice", some (.num 40)⟩).2
          ⟨"Rice", some (.num 50)⟩
        = (⟨400, .error "Crop already exists"⟩,
            (addCrop ⟨[], [], [], [], [], [], [], [⟨"crop", 0⟩]⟩
              ⟨"Rice", some (.num 40)⟩).2) :=
  addCrop_then_duplicate ⟨[], [], [], [], [], [], [], [⟨"crop", 0⟩]⟩ 0 "Rice" (.num 40)
    (some (.num 50)) (by decide) (by decide) (by decide) (by simp) (by decide) (by simp) rfl
    (by simp)

/-- C10 as the claim states it fails: the `crop` counter holds 0 and no Crop is named
"Rice", but a Crop of id 1 is stored; `POST /add-crop` for "Rice" is answered 500 on the
unique index of `id` and stores nothing, and the second `POST /add-crop` for "Rice" is
answered 200, not 400. -/
theorem addCrop_id_taken :
    Counter.findById
        (⟨[], [], [], [], [], [⟨some 1, some "Wheat", some (.num 30)⟩], [],
          [⟨"crop", 0⟩]⟩ : Store).counters "crop" = some ⟨"crop", 0⟩ ∧
      (∀ x ∈ (⟨[], [], [], [], [], [⟨some 1, some "Wheat", some (.num 30)⟩], [],
          [⟨"crop", 0⟩]⟩ : Store).crops, x.crop_name ≠ some "Rice") ∧
      (addCrop ⟨[], [], [], [], [], [⟨some 1, some "Wheat", some (.num 30)⟩], [],
          [⟨"crop", 0⟩]⟩ ⟨"Rice", some (.num 40)⟩).1
        = ⟨500, .errorDetails "Failed to add new crop" (.duplicateKey "id")⟩ ∧
      (addCrop ⟨[], [], [], [], [], [⟨some 1, some "Wheat", some (.num 30)⟩], [],
          [⟨"crop", 0⟩]⟩ ⟨"Rice", some (.num 40)⟩).2.crops
        = [⟨some 1, some "Wheat", some (.num 30)⟩] ∧
      (addCrop
          (addCrop ⟨[], [], [], [], [], [⟨some 1, some "Wheat", some (.num 30)⟩], [],
            [⟨"crop", 0⟩]⟩ ⟨"Rice", some (.num 40)⟩).2
          ⟨"Rice", some (.num 50)⟩).1.status = 200 := by
  refine ⟨by decide, by simp, ?_, ?_, ?_⟩ <;> rfl

/-- With an empty `crop_name` the required validator of the path fails: 500, nothing
stored. -/
theorem addCrop_empty_name :
    (addCrop ⟨[], [], [], [], [], [], [], [⟨"crop", 0⟩]⟩ ⟨"", some (.num 40)⟩).1
        = ⟨500, .errorDetails "Failed to add new crop" (.validation ["crop_name"])⟩ ∧
      (addCrop ⟨[], [], [], [], [], [], [], [⟨"crop", 0⟩]⟩ ⟨"", some (.num 40)⟩).2.crops
        = [] := by
  constructor <;> rfl

/-- With a null `avg_price` the required validator of the path fails: 500, nothing
stored. -/
theorem addCrop_null_avg_price :
    (addCrop ⟨[], [], [], [], [], [], [], [⟨"crop", 0⟩]⟩ ⟨"Rice", some .null⟩).1
        = ⟨500, .errorDetails "Failed to add new crop" (.validation ["avg_price"])⟩ ∧
      (addCrop ⟨[], [], [], [], [], [], [], [⟨"crop", 0⟩]⟩ ⟨"Rice", some .null⟩).2.crops
        = [] := by
  constructor <;> rfl

/-- With an `avg_price` that is an object without keys, validation passes and `minimize`
drops the path: 200, and the Crop is stored and sent without `avg_price`. -/
theorem addCrop_empty_object :
    addCrop ⟨[], [], [], [], [], [], [], [⟨"crop", 0⟩]⟩ ⟨"Rice", some (.obj [])⟩
      = (⟨200, .cropAdded "Crop added successfully" ⟨some 1, some "Rice", none⟩⟩,
          ⟨[], [], [], [], [], [⟨some 1, some "Rice", none⟩], [], [⟨"crop", 1⟩]⟩) := by
  rfl

/-! ### `Number` on decimal representations -/

theorem isStrWhiteSpaceChar_of_isDigit (c : Char) (hc : c.isDigit = true) :
    isStrWhiteSpaceChar c = false := by
  have hb : 48 ≤ c.toNat ∧ c.toNat ≤ 57 := by
    simp only [Char.isDigit, Bool.and_eq_true, decide_eq_true_eq] at hc
    exact ⟨hc.1, hc.2⟩
  simp only [isStrWhiteSpaceChar, decide_eq_false_iff_not, List.mem_cons, List.mem_singleton,
    List.mem_nil_iff, or_false, not_or]
  omega

theorem dropWhile_of_head (p : Char → Bool) (c : Char) (cs : List Char) (h : p c = false) :
    (c :: cs).dropWhile p = c :: cs := by
  simp [List.dropWhile_cons, h]

theorem trim_of_ends (m : List Char)
    (hhead : ∀ c ∈ m.head?, isStrWhiteSpaceChar c = false)
    (hlast : ∀ c ∈ m.reverse.head?, isStrWhiteSpaceChar c = false) :
    ((m.dropWhile isStrWhiteSpaceChar).reverse.dropWhile isStrWhiteSpaceChar).reverse = m := by
  have h1 : m.dropWhile isStrWhiteSpaceChar = m := by
    cases m with
    | nil => rfl
    | cons c cs => exact dropWhile_of_head _ c cs (hhead c (by simp))
  rw [h1]
  have h2 : m.reverse.dropWhile isStrWhiteSpaceChar = m.reverse := by
    cases hr : m.reverse with
    | nil => rfl
    | cons c cs =>
      rw [hr] at hlast
      exact dropWhile_of_head _ c cs (hlast c (by simp))
  rw [h2, List.reverse_reverse]

theorem nonDecimalIntegerLiteral_of_digits (l : List Char)
    (hall : ∀ c ∈ l, c.isDigit = true) : nonDecimalIntegerLiteral l = none := by
  unfold nonDecimalIntegerLiteral
  split
  all_goals first
    | rfl
    | (have h := hall _ (List.mem_cons_of_mem _ (List.mem_cons_self _ _))
       exact absurd h (by decide))

theorem strUnsignedDecimalLiteral_of_digits (negative : Bool) (l : List Char) (hne : l ≠ [])
    (hall : ∀ c ∈ l, c.isDigit = true) :
    strUnsignedDecimalLiteral negative l = .decimal negative (digitsValue l) 0 := by
  have htake : l.takeWhile Char.isDigit = l := List.takeWhile_eq_self_iff.mpr hall
  have hdrop : l.dropWhile Char.isDigit = [] := List.dropWhile_eq_nil_iff.mpr hall
  have hinf : l ≠ ['I', 'n', 'f', 'i', 'n', 'i', 't', 'y'] := by
    intro h
    have := hall 'I' (by rw [h]; simp)
    exact absurd this (by decide)
  unfold strUnsignedDecimalLiteral
  rw [if_neg hinf, htake, hdrop]
  cases l with
  | nil => exact absurd rfl hne
  | cons c cs => simp

theorem stringNumericLiteral_of_digits (s : String) (l : List Char) (hs : s.toList = l)
    (hne : l ≠ []) (hall : ∀ c ∈ l, c.isDigit = true) :
    stringNumericLiteral s = .decimal false (digitsValue l) 0 := by
  have htrim := trim_of_ends l
    (fun c hc => isStrWhiteSpaceChar_of_isDigit c (hall c (List.mem_of_mem_head? hc)))
    (fun c hc => isStrWhiteSpaceChar_of_isDigit c
      (hall c (List.mem_reverse.mp (List.mem_of_mem_head? hc))))
  unfold stringNumericLiteral
  rw [hs, htrim]
  split
  · exact absurd rfl hne
  · exact absurd (hall '-' (by simp)) (by decide)
  · exact absurd (hall '+' (by simp)) (by decide)
  · rw [nonDecimalIntegerLiteral_of_digits l hall]
    exact strUnsignedDecimalLiteral_of_digits false l hne hall

theorem stringNumericLiteral_of_minus_digits (s : String) (l : List Char)
    (hs : s.toList = '-' :: l) (hne : l ≠ []) (hall : ∀ c ∈ l, c.isDigit = true) :
    stringNumericLiteral s = .decimal true (digitsValue l) 0 := by
  have htrim := trim_of_ends ('-' :: l)
    (fun c hc => by
      simp only [List.head?_cons, Option.mem_def, Option.some.injEq] at hc
      rw [← hc]
      decide)
    (fun c hc => by
      have hmem := List.mem_reverse.mp (List.mem_of_mem_head? hc)
      have hr : ('-' :: l).reverse = l.reverse ++ ['-'] := by simp
      rw [hr] at hc
      cases hl : l.reverse with
      | nil => exact absurd (List.reverse_eq_nil_iff.mp hl) hne
      | cons x xs =>
        rw [hl] at hc
        simp only [List.cons_append, List.head?_cons, Option.mem_def, Option.some.injEq] at hc
        rw [← hc]
        exact isStrWhiteSpaceChar_of_isDigit x
          (hall x (List.mem_reverse.mp (by rw [hl]; simp))))
  unfold stringNumericLiteral
  rw [hs, htrim]
  exact strUnsignedDecimalLiteral_of_digits true l hne hall

theorem NumericLiteral.toNumber_of_safe (negative : Bool) (n : Nat) (h : n ≤ 2 ^ 53) :
    (NumericLiteral.decimal negative n 0).toNumber = .finite negative n 0 := by
  have hc : (0 : Int) ≤ 0 ∧ n * 10 ^ (0 : Int).toNat ≤ 2 ^ 53 := ⟨le_refl 0, by simpa using h⟩
  show (if (0 : Int) ≤ 0 ∧ n * 10 ^ (0 : Int).toNat ≤ 2 ^ 53 then
      JSNumber.finite negative (n * 10 ^ (0 : Int).toNat) 0
    else
      match roundRatioToDouble (n * 10 ^ (0 : Int).toNat) (10 ^ (-(0 : Int)).toNat) with
      | some (m, k) => JSNumber.finite negative m k
      | none => JSNumber.infinity negative) = JSNumber.finite negative n 0
  rw [if_pos hc]
  simp

/-- The decimal representation of an integer of magnitude at most `2 ^ 53` is read by
`Number` as that integer. -/
theorem Number_toString (p : Int) (hlo : -2 ^ 53 ≤ p) (hhi : p ≤ 2 ^ 53) :
    Number (toString p) ≠ .nan ∧ (Number (toString p)).toInt? = some p := by
  cases p with
  | ofNat n =>
    obtain ⟨l, hl, hne, hall, hval⟩ := toDigitsCore_spec (n + 1) n [] (by omega)
    have hlist : (toString (Int.ofNat n)).toList = l := by
      have : toString (Int.ofNat n) = Nat.repr n := rfl
      rw [this]
      simp [Nat.repr, Nat.toDigits, hl, List.asString]
    have hn : n ≤ 2 ^ 53 := by
      have : (Int.ofNat n) = (n : Int) := rfl
      omega
    unfold Number
    rw [stringNumericLiteral_of_digits _ l hlist hne hall, hval,
      NumericLiteral.toNumber_of_safe false n hn]
    exact ⟨by simp, by simp [JSNumber.toInt?]⟩
  | negSucc n =>
    obtain ⟨l, hl, hne, hall, hval⟩ := toDigitsCore_spec (n + 1 + 1) (n + 1) [] (by omega)
    have hlist : (toString (Int.negSucc n)).toList = '-' :: l := by
      have : toString (Int.negSucc n) = "-" ++ Nat.repr (n + 1) := rfl
      rw [this]
      simp [String.toList, String.data_append, Nat.repr, Nat.toDigits, hl, List.asString]
    have hn : n + 1 ≤ 2 ^ 53 := by
      have : Int.negSucc n = -((n : Int) + 1) := Int.negSucc_eq n
      omega
    unfold Number
    rw [stringNumericLiteral_of_minus_digits _ l hlist hne hall, hval,
      NumericLiteral.toNumber_of_safe true (n + 1) hn]
    exact ⟨by simp, by simp [JSNumber.toInt?, Int.negSucc_eq]⟩

/-! ### `DELETE /deleteAnnouncement/:id` -/

theorem idEquals_of_absent (id : Option Int) (number : JSNumber)
    (h : ∀ n, number.toInt? = some n → id ≠ some n) : idEquals id number = false := by
  unfold idEquals
  cases id with
  | none => rfl
  | some i =>
    cases hn : number.toInt? with
    | none => rfl
    | some n =>
      have := h n hn
      simpa using this

theorem deleteAnnouncement_of_absent (st : Store) (id : String)
    (hnumber : Number id ≠ .nan)
    (habsent : ∀ a ∈ st.announcements, ∀ n, (Number id).toInt? = some n → a.id ≠ some n) :
    deleteAnnouncement st id = (⟨404, .message "Announcement not found"⟩, st) := by
  have hfind : st.announcements.find? (fun a => idEquals a.id (Number id)) = none := by
    rw [List.find?_eq_none]
    intro a ha
    simp [idEquals_of_absent a.id (Number id) (habsent a ha)]
  unfold deleteAnnouncement
  split
  · rename_i heq
    exact absurd heq hnumber
  · rw [hfind]

theorem deleteAnnouncement_of_nan (st : Store) (id : String) (hnan : Number id = .nan) :
    deleteAnnouncement st id = (⟨500, .error "Internal server error"⟩, st) := by
  unfold deleteAnnouncement
  rw [hnan]

/-- C11, as amended: when no Announcement record has as `id` the number that `Number(id)`
gives, `DELETE /deleteAnnouncement/:id` leaves the store as it was and is answered 404 if
`Number(id)` is a number, 500 if it is `NaN`. -/
theorem deleteAnnouncement_not_found (st : Store) (id : String)
    (habsent : ∀ a ∈ st.announcements, ∀ n, (Number id).toInt? = some n → a.id ≠ some n) :
    (Number id ≠ .nan →
      deleteAnnouncement st id = (⟨404, .message "Announcement not found"⟩, st)) ∧
    (Number id = .nan →
      deleteAnnouncement st id = (⟨500, .error "Internal server error"⟩, st)) :=
  ⟨fun hnumber => deleteAnnouncement_of_absent st id hnumber habsent,
    deleteAnnouncement_of_nan st id⟩

theorem deleteAnnouncement_not_found_witness :
    deleteAnnouncement
        ⟨[], [⟨some 1, some "Fair", some "On Sunday", 0⟩], [], [], [], [], [], []⟩ "2.0"
      = (⟨404, .message "Announcement not found"⟩,
          ⟨[], [⟨some 1, some "Fair", some "On Sunday", 0⟩], [], [], [], [], [], []⟩) ∧
    deleteAnnouncement
        ⟨[], [⟨some 1, some "Fair", some "On Sunday", 0⟩], [], [], [], [], [], []⟩ "1x"
      = (⟨500, .error "Internal server error"⟩,
          ⟨[], [⟨some 1, some "Fair", some "On Sunday", 0⟩], [], [], [], [], [], []⟩) :=
  ⟨(deleteAnnouncement_not_found
      ⟨[], [⟨some 1, some "Fair", some "On Sunday", 0⟩], [], [], [], [], [], []⟩ "2.0"
      (by decide)).1 (by decide),
    (deleteAnnouncement_not_found
      ⟨[], [⟨some 1, some "Fair", some "On Sunday", 0⟩], [], [], [], [], [], []⟩ "1x"
      (by decide)).2 (by decide)⟩

/-- C11 as the claim states it fails: no Announcement record has the id `abc`, and
`DELETE /deleteAnnouncement/abc` is answered 500, not 404, because `Number("abc")` is `NaN`
and the cast of the query value throws. -/
theorem deleteAnnouncement_nan :
    Number "abc" = .nan ∧
    (deleteAnnouncement
        ⟨[], [⟨some 1, some "Fair", some "On Sunday", 0⟩], [], [], [], [], [], []⟩ "abc").1
      = ⟨500, .error "Internal server error"⟩ ∧
    (deleteAnnouncement
        ⟨[], [⟨some 1, some "Fair", some "On Sunday", 0⟩], [], [], [], [], [], []⟩
        "abc").1.status ≠ 404 := by
  refine ⟨by decide, rfl, by decide⟩

/-- The decimal representation of an integer of magnitude at most `2 ^ 53` that is the `id`
of no Announcement record is answered 404. -/
theorem deleteAnnouncement_integer_absent (st : Store) (n : Int)
    (hlo : -2 ^ 53 ≤ n) (hhi : n ≤ 2 ^ 53)
    (habsent : ∀ a ∈ st.announcements, a.id ≠ some n) :
    deleteAnnouncement st (toString n) = (⟨404, .message "Announcement not found"⟩, st) := by
  obtain ⟨hnumber, hint⟩ := Number_toString n hlo hhi
  refine deleteAnnouncement_of_absent st (toString n) hnumber ?_
  intro a ha k hk
  rw [hint] at hk
  cases hk
  exact habsent a ha

/-- A parameter that is no decimal representation of an integer and that a double rounds to
one finds the record of that integer: `1.00000000000000000001` deletes announcement 1. -/
theorem deleteAnnouncement_rounded :
    deleteAnnouncement
        ⟨[], [⟨some 1, some "Fair", some "On Sunday", 0⟩], [], [], [], [], [], []⟩
        "1.00000000000000000001"
      = (⟨200, .message "Announcement deleted successfully"⟩,
          ⟨[], [], [], [], [], [], [], []⟩) := by
  rfl

/-! ### The validation of `placeId` -/

theorem parseDigits_eq_none_iff (cs : List Char) :
    parseDigits cs = none ↔ ∀ c ∈ cs.head?, c.isDigit = false := by
  unfold parseDigits
  cases cs with
  | nil => simp
  | cons c rest =>
    by_cases hc : c.isDigit = true
    · simp [List.takeWhile_cons, hc]
    · simp [List.takeWhile_cons, hc]

theorem getCropsByPlace_of_nan (st : Store) (placeId : String)
    (hp : parseInt placeId = none) :
    getCropsByPlace st placeId
      = ⟨400, .error "Invalid placeId format. Ensure it is an integer."⟩ := by
  unfold getCropsByPlace
  rw [hp]

theorem toString_toList (p : Int) :
    (∀ c ∈ (toString p).toList, c.isDigit = true) ∨
      ∃ l, (toString p).toList = '-' :: l := by
  cases p with
  | ofNat n =>
    left
    obtain ⟨l, hl, -, hall, -⟩ := toDigitsCore_spec (n + 1) n [] (by omega)
    have hlist : (toString (Int.ofNat n)).toList = l := by
      have : toString (Int.ofNat n) = Nat.repr n := rfl
      rw [this]
      simp [Nat.repr, Nat.toDigits, hl, List.asString]
    rw [hlist]
    exact hall
  | negSucc n =>
    right
    refine ⟨(Nat.repr (n + 1)).toList, ?_⟩
    have : toString (Int.negSucc n) = "-" ++ Nat.repr (n + 1) := rfl
    rw [this]
    simp [String.toList, String.data_append]

/-- C12, the code at the failing input: `12abc` is the decimal representation of no
integer, and `GET /crops/12abc` is answered 200 with the join for place 12, not 400. -/
theorem getCropsByPlace_digit_start :
    (∀ p : Int, toString p ≠ "12abc") ∧
    getCropsByPlace
        ⟨[], [], [], [], [], [⟨some 1, some "Rice", some (.num 40)⟩],
          [⟨some 9, 12, 1, some (.num 35), some "Jan 2024"⟩], []⟩ "12abc"
      = ⟨200, .rows [⟨some 9, "Rice", some (.num 35), some "Jan 2024", .num 40⟩]⟩ := by
  constructor
  · intro p hp
    rcases toString_toList p with h | ⟨l, h⟩
    · rw [hp] at h
      exact absurd (h 'a' (by decide)) (by decide)
    · rw [hp] at h
      have hhead : ("12abc".toList).head? = some '-' := by rw [h]; rfl
      exact absurd hhead (by decide)
  · rw [getCropsByPlace_of_parseInt _ "12abc" 12 (by decide)]
    rfl

/-! ### Update and delete of an id that no record has -/

theorem updateAnnouncement_of_absent (st : Store) (id : String)
    (body : UpdateAnnouncementBody) (hnumber : Number id ≠ .nan)
    (habsent : ∀ a ∈ st.announcements, ∀ n, (Number id).toInt? = some n → a.id ≠ some n) :
    updateAnnouncement st id body = (⟨404, .message "Announcement not found"⟩, st) := by
  have hfind : st.announcements.find? (fun a => idEquals a.id (Number id)) = none := by
    rw [List.find?_eq_none]
    intro a ha
    simp [idEquals_of_absent a.id (Number id) (habsent a ha)]
  unfold updateAnnouncement
  split
  · rename_i heq
    exact absurd heq hnumber
  · rw [hfind]

theorem removeAdmin_of_absent (st : Store) (body : UserIdBody)
    (habsent : ∀ u ∈ st.users, u.id ≠ some body.user_id) :
    removeAdmin st body = (⟨404, .message "Admin not found or not an admin"⟩, st) := by
  have hfind : st.users.find? (User.isOfType body.user_id "admin") = none := by
    rw [List.find?_eq_none]
    intro u hu
    simp [User.isOfType, habsent u hu]
  unfold removeAdmin
  rw [hfind]

/-- The sibling of `POST /deactivate-user`: `POST /remove-user` reads `deletedCount` and
answers 404 for an id that no User has. -/
theorem removeUser_of_absent (st : Store) (body : UserIdBody)
    (habsent : ∀ u ∈ st.users, u.id ≠ some body.user_id) :
    removeUser st body = (⟨404, .message "User not found or not a user"⟩, st) := by
  have hfind : st.users.find? (User.isOfType body.user_id "user") = none := by
    rw [List.find?_eq_none]
    intro u hu
    simp [User.isOfType, habsent u hu]
  unfold removeUser
  rw [hfind]

/-- The sibling of `POST /respondSuggestion`: `PUT /admin/respondQuery/:id` reads the result
and answers 404 for an id that no Query has. -/
theorem respondQuery_of_absent (st : Store) (id : String) (body : RespondQueryBody) (n : Int)
    (hn : parseInt id = some n) (habsent : ∀ q ∈ st.queries, q.id ≠ some n) :
    respondQuery st id body = (⟨404, .error "Query not found"⟩, st) := by
  have hfind : st.queries.find? (fun q => decide (q.id = some n)) = none := by
    rw [List.find?_eq_none]
    intro q hq
    simpa using habsent q hq
  unfold respondQuery
  rw [hn]
  simp only [hfind]

theorem postUpdatePrice_of_absent (st : Store) (body : UpdatePriceBody)
    (habsent : ∀ p ∈ st.prices, p.id ≠ some body.id) :
    postUpdatePrice st body = (⟨404, .error "Price not found"⟩, st) := by
  have hfind : st.prices.find? (fun p => decide (p.id = some body.id)) = none := by
    rw [List.find?_eq_none]
    intro p hp
    simpa using habsent p hp
  unfold postUpdatePrice
  rw [hfind]

theorem updateAveragePrice_of_absent (st : Store) (body : UpdateAveragePriceBody)
    (average_price : JVal) (hprice : body.average_price = some average_price)
    (habsent : ∀ c ∈ st.crops, c.id ≠ some body.crop_id) :
    updateAveragePrice st body = (⟨404, .error "Crop not found or no changes made"⟩, st) := by
  have hfind : st.crops.find? (fun c => decide (c.id = some body.crop_id)) = none := by
    rw [List.find?_eq_none]
    intro c hc
    simpa using habsent c hc
  unfold updateAveragePrice
  rw [hprice]
  simp only [hfind]

/-- The two handlers on the storage-native `_id` answer 200 or 500 and never 404. -/
theorem putUpdate_status (lookup : String → ObjectIdLookup) (st : Store) (id : String)
    (crop : UpdateCropBody) (price : UpdateCropPriceBody) :
    ((putUpdateCrop lookup st id crop).1.status = 200 ∨
        (putUpdateCrop lookup st id crop).1.status = 500) ∧
      ((putUpdatePrice lookup st id price).1.status = 200 ∨
        (putUpdatePrice lookup st id price).1.status = 500) ∧
      (lookup id = .absent →
        putUpdateCrop lookup st id crop = (⟨200, .message "Crop updated successfully"⟩, st) ∧
        putUpdatePrice lookup st id price
          = (⟨200, .message "Crop price updated successfully"⟩, st)) := by
  unfold putUpdateCrop putUpdatePrice
  cases h : lookup id <;> simp

/-- C13, the code at the failing inputs: whatever the store and the id, so also when no
User and no Suggestion has the id, `POST /deactivate-user` and `POST /respondSuggestion` are
answered 200, not 404; and when no record has the id they leave the store as it was. -/
theorem notFound_unchecked (st : Store) (user : UserIdBody) (suggestion : RespondSuggestionBody) :
    (deactivateUser st user).1 = ⟨200, .message "User deactivated successfully"⟩ ∧
    (respondSuggestion st suggestion).1
      = ⟨200, .message "Suggestion responded successfully"⟩ ∧
    ((∀ u ∈ st.users, u.id ≠ some user.user_id) → (deactivateUser st user).2 = st) ∧
    ((∀ s ∈ st.suggestions, s.id ≠ some suggestion.id) →
      (respondSuggestion st suggestion).2 = st) := by
  refine ⟨rfl, rfl, ?_, ?_⟩
  · intro habsent
    have herase : st.users.eraseP (fun u => decide (u.id = some user.user_id)) = st.users := by
      apply List.eraseP_of_forall_not
      intro u hu
      simpa using habsent u hu
    simp [deactivateUser, herase]
  · intro habsent
    have hupdate : ∀ l : List Suggestion, (∀ s ∈ l, s.id ≠ some suggestion.id) →
        updateFirst (fun s => decide (s.id = some suggestion.id))
          (fun s => { s with response := some suggestion.response }) l = l := by
      intro l
      induction l with
      | nil => intro _; rfl
      | cons x xs ih =>
        intro h
        have hx : ¬ x.id = some suggestion.id := h x (List.mem_cons_self x xs)
        simp only [updateFirst, hx, decide_False, Bool.false_eq_true, if_false]
        rw [ih (fun s hs => h s (List.mem_cons_of_mem _ hs))]
    simp [respondSuggestion, hupdate st.suggestions habsent]

theorem notFound_unchecked_witness :
    deactivateUser
        ⟨[⟨some 3, "bob", none, none, none, none, none, some "hash:pw", 1, "user"⟩],
          [], [⟨some 2, some "Well", some "Repair it", some "bob", 0, none⟩],
          [], [], [], [], []⟩ ⟨99⟩
      = (⟨200, .message "User deactivated successfully"⟩,
          ⟨[⟨some 3, "bob", none, none, none, none, none, some "hash:pw", 1, "user"⟩],
            [], [⟨some 2, some "Well", some "Repair it", some "bob", 0, none⟩],
            [], [], [], [], []⟩) ∧
    respondSuggestion
        ⟨[⟨some 3, "bob", none, none, none, none, none, some "hash:pw", 1, "user"⟩],
          [], [⟨some 2, some "Well", some "Repair it", some "bob", 0, none⟩],
          [], [], [], [], []⟩ ⟨99, "Noted"⟩
      = (⟨200, .message "Suggestion responded successfully"⟩,
          ⟨[⟨some 3, "bob", none, none, none, none, none, some "hash:pw", 1, "user"⟩],
            [], [⟨some 2, some "Well", some "Repair it", some "bob", 0, none⟩],
            [], [], [], [], []⟩) :=
  ⟨Prod.ext
      (notFound_unchecked
        ⟨[⟨some 3, "bob", none, none, none, none, none, some "hash:pw", 1, "user"⟩],
          [], [⟨some 2, some "Well", some "Repair it", some "bob", 0, none⟩],
          [], [], [], [], []⟩ ⟨99⟩ ⟨99, "Noted"⟩).1
      ((notFound_unchecked
        ⟨[⟨some 3, "bob", none, none, none, none, none, some "hash:pw", 1, "user"⟩],
          [], [⟨some 2, some "Well", some "Repair it", some "bob", 0, none⟩],
          [], [], [], [], []⟩ ⟨99⟩ ⟨99, "Noted"⟩).2.2.1 (by decide)),
    Prod.ext
      (notFound_unchecked
        ⟨[⟨some 3, "bob", none, none, none, none, none, some "hash:pw", 1, "user"⟩],
          [], [⟨some 2, some "Well", some "Repair it", some "bob", 0, none⟩],
          [], [], [], [], []⟩ ⟨99⟩ ⟨99, "Noted"⟩).2.1
      ((notFound_unchecked
        ⟨[⟨some 3, "bob", none, none, none, none, none, some "hash:pw", 1, "user"⟩],
          [], [⟨some 2, some "Well", some "Repair it", some "bob", 0, none⟩],
          [], [], [], [], []⟩ ⟨99⟩ ⟨99, "Noted"⟩).2.2.2 (by decide))⟩

end RuralNexus
